import Mathlib

/-!
Verification of the LUDU prototype-generator backend (src/web/backend/app.py).

The embedding below is a shallow translation of the orchestration core:
the job data model, `create_prototype`, the generation engine
`generate_prototype` with its bridge-driven and simulated paths, the
`UnityBridge.send_command` client, and the `websocket_progress` publisher.

Modelling conventions:
* The engine's mutations of the in-memory job dict are modelled as an explicit
  event trace (`Ev`): each Python assignment to the job's `status`, `progress`,
  `logs` or `completedAt` field becomes one event, and each
  `unity_bridge.send_command(...)` call becomes one `Ev.cmd` event (emitted
  also when the call raises, since the command was issued before failing).
  Replaying the trace with `applyEv` recovers the job states an observer sees.
* Wall-clock timestamps (`datetime.now()`) are abstracted away: log lines keep
  their content and order, `completedAt` keeps only whether it was ever set.
* Network nondeterminism is an oracle: `connectOk` is the outcome of the
  initial `unity_bridge.connect()`, and `oracle n` is the outcome of the n-th
  `send_command` call (`none` = the command returned, `some msg` = it raised
  an exception with message `msg`).
* `asyncio.sleep` performs no job mutation and produces no event.
-/

/-- Job lifecycle states: the string values ever stored in `prototype["status"]`. -/
inductive Status
  | queued
  | generating
  | completed
  | failed
deriving DecidableEq, Repr

/-- Content of one log line appended to `prototype["logs"]` (timestamp prefix
abstracted; the `sim` flag records the "(simule)" marker of the simulated path). -/
inductive LogLine
  | started
  | scene (sim : Bool)
  | system (name : String) (sim : Bool)
  | player (sim : Bool)
  | ui (sim : Bool)
  | done (sim : Bool)
  | error (msg : String)
deriving DecidableEq, Repr

/-- One entry of the static `SYSTEM_TEMPLATES` catalog. -/
structure SystemTemplate where
  name : String
  scripts : List String
  prefabs : List String
  ui : List String
deriving DecidableEq, Repr

/-- The `SYSTEM_TEMPLATES` table of app.py, as an association list. -/
def SYSTEM_TEMPLATES : List (String × SystemTemplate) :=
  [ ("health", { name := "HealthSystem", scripts := ["HealthSystem.cs", "IDamageable.cs"],
                 prefabs := [], ui := ["HealthBar"] }),
    ("mana", { name := "ManaSystem", scripts := ["ManaSystem.cs", "IResource.cs"],
               prefabs := [], ui := ["ManaBar"] }),
    ("inventory", { name := "InventorySystem",
                    scripts := ["InventorySystem.cs", "InventorySlot.cs", "ItemSO.cs"],
                    prefabs := ["InventoryUI"], ui := ["InventoryPanel"] }),
    ("equipment", { name := "EquipmentSystem", scripts := ["EquipmentManager.cs", "EquipSlot.cs"],
                    prefabs := [], ui := [] }),
    ("combat-melee", { name := "MeleeCombat",
                       scripts := ["MeleeCombat.cs", "AttackData.cs", "Hitbox.cs"],
                       prefabs := ["HitboxPrefab"], ui := [] }),
    ("combat-ranged", { name := "RangedCombat", scripts := ["RangedCombat.cs", "Projectile.cs"],
                        prefabs := ["ProjectilePrefab"], ui := [] }),
    ("ai-fsm", { name := "AIStateMachine",
                 scripts := ["AIStateMachine.cs", "AIState.cs", "IdleState.cs", "ChaseState.cs", "AttackState.cs"],
                 prefabs := [], ui := [] }),
    ("ai-patrol", { name := "PatrolSystem", scripts := ["PatrolSystem.cs", "Waypoint.cs"],
                    prefabs := ["WaypointPrefab"], ui := [] }),
    ("dialogue", { name := "DialogueSystem",
                   scripts := ["DialogueSystem.cs", "DialogueSO.cs", "DialogueUI.cs"],
                   prefabs := ["DialoguePanel"], ui := ["DialogueBox"] }),
    ("quest", { name := "QuestSystem", scripts := ["QuestSystem.cs", "Quest.cs", "QuestObjective.cs"],
                prefabs := [], ui := ["QuestTracker"] }),
    ("save-load", { name := "SaveLoadSystem",
                    scripts := ["SaveManager.cs", "ISaveable.cs", "SaveData.cs"],
                    prefabs := [], ui := [] }) ]

/-- A command issued to the Unity bridge, with the parameters that app.py passes. -/
inductive BridgeCmd
  | setupSceneStructure (layout : List String)
  | importVaultSystem (systemId : String) (systemPath : String) (targetPath : String)
  | setupPlayer (playerType : String) (systems : List String) (createModel : Bool)
  | setupGameUI (systems : List String) (uiStyle : String)
deriving DecidableEq, Repr

/-- A prototype job as stored in `prototypes_db`.  `createdAt` and the numeric
value of `completedAt` are wall-clock data and are abstracted: `completedAt`
records only whether the field was ever assigned. -/
structure Job where
  id : String
  name : String
  gameType : String
  systems : List String
  reference : Option String
  status : Status
  completedAt : Bool
  progress : Nat
  logs : List LogLine
deriving DecidableEq, Repr

/-- `create_prototype` (app.py line 226): builds the fresh job dict stored into
`prototypes_db` — status "queued", progress 0, empty logs, no completion time.
No validation of the requested system keys is performed. -/
def create_prototype (id name gameType : String) (systems : List String)
    (reference : Option String) : Job :=
  { id := id, name := name, gameType := gameType, systems := systems,
    reference := reference, status := .queued, completedAt := false,
    progress := 0, logs := [] }

/-- One observable action of the generation engine: a mutation of the job's
fields, or a bridge command being issued. -/
inductive Ev
  | setStatus (s : Status)
  | setProgress (p : Nat)
  | appendLog (l : LogLine)
  | setCompletedAt
  | cmd (c : BridgeCmd)
deriving DecidableEq, Repr

/-- Replay one engine event on a job (the dict mutation it denotes). -/
def applyEv (j : Job) : Ev → Job
  | .setStatus s => { j with status := s }
  | .setProgress p => { j with progress := p }
  | .appendLog l => { j with logs := j.logs ++ [l] }
  | .setCompletedAt => { j with completedAt := true }
  | .cmd _ => j

/-- Replay a whole event trace. -/
def runEvents (j : Job) (evs : List Ev) : Job :=
  evs.foldl applyEv j

/-- The progress values assigned by a trace, in order. -/
def progressVals (evs : List Ev) : List Nat :=
  evs.filterMap fun e => match e with | .setProgress p => some p | _ => none

/-- The bridge commands issued by a trace, in order. -/
def cmdsOf (evs : List Ev) : List BridgeCmd :=
  evs.filterMap fun e => match e with | .cmd c => some c | _ => none

/-- The log lines appended by a trace, in order. -/
def logsOf (evs : List Ev) : List LogLine :=
  evs.filterMap fun e => match e with | .appendLog l => some l | _ => none

/-- The status values assigned by a trace, in order. -/
def statusVals (evs : List Ev) : List Status :=
  evs.filterMap fun e => match e with | .setStatus s => some s | _ => none

/-- Whether an event is the completion-timestamp assignment. -/
def isSetCompletedAt : Ev → Bool
  | .setCompletedAt => true
  | _ => false

/-- Whether a log line is an error line ("HATA: ..."). -/
def isErrLine : LogLine → Bool
  | .error _ => true
  | _ => false

/-- A trace fragment that only performs step work: it never assigns the status
nor the completion timestamp. -/
def stepOnly (l : List Ev) : Prop :=
  ∀ e ∈ l, (∀ s, e ≠ Ev.setStatus s) ∧ e ≠ Ev.setCompletedAt

/-- `total_steps` as computed in both `generate_prototype` (line 268) and
`simulate_generation` (line 328): number of requested systems + 3. -/
def total_steps (systems : List String) : Nat :=
  systems.length + 3

/-- The `"3D" if "3d" in prototype["gameType"].lower() else "2D"` computation
of the player-setup step (line 300). -/
def playerTypeOf (gameType : String) : String :=
  if "3d".toList <:+: gameType.toLower.toList then "3D" else "2D"

/-- `[SYSTEM_TEMPLATES[s]["name"] for s in systems if s in SYSTEM_TEMPLATES]`
(lines 301 and 310). -/
def resolvedNames (systems : List String) : List String :=
  systems.filterMap fun s => (List.lookup s SYSTEM_TEMPLATES).map (·.name)

/-- The `ImportVaultSystem` command built for a known system key (line 286). -/
def importCmd (name k : String) (t : SystemTemplate) : BridgeCmd :=
  .importVaultSystem k ("Core/" ++ t.name) ("Assets/_Prototype_" ++ name ++ "/Scripts")

/-- The import commands issued by the per-system loop, in request order
(unknown keys contribute none). -/
def importCmds (name : String) (systems : List String) : List BridgeCmd :=
  systems.filterMap fun k => (List.lookup k SYSTEM_TEMPLATES).map (importCmd name k)

/-- The per-system log lines of the bridge path, in request order (unknown
keys contribute none — the log append sits inside the known-key branch). -/
def knownLogs (systems : List String) : List LogLine :=
  systems.filterMap fun k => (List.lookup k SYSTEM_TEMPLATES).map fun t => .system t.name false

/-- Number of requested keys present in the catalog. -/
def countKnown (systems : List String) : Nat :=
  (systems.filterMap fun k => List.lookup k SYSTEM_TEMPLATES).length

/-- Position in the request list of the r-th catalog-known key (0-based among
known keys); equals successive unknown-skipping positions. -/
def nthKnownPos : List String → Nat → Nat
  | [], _ => 0
  | k :: rest, r =>
    if (List.lookup k SYSTEM_TEMPLATES).isSome then
      match r with
      | 0 => 0
      | r + 1 => nthKnownPos rest r + 1
    else nthKnownPos rest r + 1

/-- Number of generation steps fully completed before the k-th bridge command
(0 = scene, 1..m = imports of known keys, m+1 = player, m+2 = UI) is issued:
the scene counts one step, and every earlier requested key — known or
unknown — counts one step. -/
def stepsBeforeCmd (systems : List String) (k : Nat) : Nat :=
  if k = 0 then 0
  else if k ≤ countKnown systems then nthKnownPos systems (k - 1) + 1
  else systems.length + (k - countKnown systems)

/-- The `SetupSceneStructure` command (line 273). -/
def sceneCmd : BridgeCmd :=
  .setupSceneStructure ["--- MANAGERS ---", "--- PLAYER ---", "--- ENEMIES ---",
                        "--- ENVIRONMENT ---", "--- UI ---"]

/-- The `SetupPlayer` command (line 299). -/
def playerCmd (gameType : String) (systems : List String) : BridgeCmd :=
  .setupPlayer (playerTypeOf gameType) (resolvedNames systems) true

/-- The `SetupGameUI` command (line 309). -/
def uiCmd (systems : List String) : BridgeCmd :=
  .setupGameUI (resolvedNames systems) "Minimal"

/-- All bridge commands a fully successful run issues, in order. -/
def cmdList (name gameType : String) (systems : List String) : List BridgeCmd :=
  sceneCmd :: (importCmds name systems ++ [playerCmd gameType systems, uiCmd systems])

/-- The descriptive log line appended just before the k-th bridge command is
sent. -/
def cmdLogAt (systems : List String) (k : Nat) : LogLine :=
  (LogLine.scene false :: (knownLogs systems ++ [.player false, .ui false])).getD k (.scene false)

/-- Result of the per-system loop of `generate_prototype` (lines 280-295):
its events, the final `current_step`, the next `send_command` ordinal, and
the exception message if a bridge command raised. -/
structure LoopOut where
  events : List Ev
  step : Nat
  ci : Nat
  err : Option String
deriving Repr

/-- The per-system loop of `generate_prototype` (lines 280-295): for each
requested key, if it is in `SYSTEM_TEMPLATES` append its log line and issue
`ImportVaultSystem` (aborting on a raised exception, after a rate-limit
sleep otherwise); in every case — known or unknown key — then increment
`current_step` and recompute progress. -/
def sysLoop (oracle : Nat → Option String) (total : Nat) (name : String) :
    List String → Nat → Nat → LoopOut
  | [], step, ci => ⟨[], step, ci, none⟩
  | k :: rest, step, ci =>
    match List.lookup k SYSTEM_TEMPLATES with
    | some t =>
      match oracle ci with
      | some msg =>
        ⟨[.appendLog (.system t.name false), .cmd (importCmd name k t)], step, ci + 1, some msg⟩
      | none =>
        let r := sysLoop oracle total name rest (step + 1) (ci + 1)
        ⟨Ev.appendLog (.system t.name false) :: Ev.cmd (importCmd name k t) ::
           Ev.setProgress ((step + 1) * 100 / total) :: r.events, r.step, r.ci, r.err⟩
    | none =>
      let r := sysLoop oracle total name rest (step + 1) ci
      ⟨Ev.setProgress ((step + 1) * 100 / total) :: r.events, r.step, r.ci, r.err⟩

/-- One iteration of the `simulate_generation` loop (lines 330-344): sleep,
recompute progress from the 1-based step count, then append the log line
selected by the branch on `i`. -/
def simStepEvents (systems : List String) (total i : Nat) : List Ev :=
  Ev.setProgress ((i + 1) * 100 / total) ::
  (if i = 0 then [Ev.appendLog (.scene true)]
   else if i < systems.length + 1 then
     match systems.get? (i - 1) with
     | some k => [Ev.appendLog (.system k true)]
     | none => []
   else if i = total - 2 then [Ev.appendLog (.player true)]
   else [Ev.appendLog (.ui true)])

/-- `simulate_generation` (lines 325-348): the no-bridge fallback.  Runs the
step loop for `total_steps` iterations, then marks the job completed, sets
the completion timestamp and appends the final "(simule)" log line. -/
def simulate_generation (j : Job) : List Ev :=
  let total := total_steps j.systems
  ((List.range total).flatMap (simStepEvents j.systems total)) ++
  [Ev.setStatus .completed, Ev.setCompletedAt, Ev.appendLog (.done true)]

/-- `generate_prototype` (lines 253-322) as an event trace.  `connectOk` is
the outcome of the initial `unity_bridge.connect()`; `oracle n` the outcome
of the n-th `send_command`.  The job is marked generating and the started
line logged; if the connect failed the simulated path runs; otherwise the
scene, per-system, player and UI commands are issued in order, each followed
by a progress update, and any raised bridge exception jumps to the `except`
block, which marks the job failed and appends the error line. -/
def generate_prototype (connectOk : Bool) (oracle : Nat → Option String) (j : Job) : List Ev :=
  let total := total_steps j.systems
  [Ev.setStatus .generating, Ev.appendLog .started] ++
  (if connectOk = false then
    simulate_generation j
  else
    Ev.appendLog (.scene false) :: Ev.cmd sceneCmd ::
    (match oracle 0 with
     | some msg => [Ev.setStatus .failed, Ev.appendLog (.error msg)]
     | none =>
       Ev.setProgress (1 * 100 / total) ::
       (let r := sysLoop oracle total j.name j.systems 1 1
        r.events ++
        (match r.err with
         | some msg => [Ev.setStatus .failed, Ev.appendLog (.error msg)]
         | none =>
           Ev.appendLog (.player false) :: Ev.cmd (playerCmd j.gameType j.systems) ::
           (match oracle r.ci with
            | some msg => [Ev.setStatus .failed, Ev.appendLog (.error msg)]
            | none =>
              Ev.setProgress ((r.step + 1) * 100 / total) ::
              Ev.appendLog (.ui false) :: Ev.cmd (uiCmd j.systems) ::
              (match oracle (r.ci + 1) with
               | some msg => [Ev.setStatus .failed, Ev.appendLog (.error msg)]
               | none =>
                 [Ev.setProgress 100, Ev.setStatus .completed, Ev.setCompletedAt,
                  Ev.appendLog (.done false)]))))))

/-- Liveness flag of the shared `UnityBridge` connection. -/
structure UnityBridge where
  connected : Bool
deriving DecidableEq, Repr

/-- The two error conditions `send_command` can raise: HTTP 503
"Unity Bridge baglantisi yok" when no connection could be established, and
HTTP 500 "Unity komut hatasi: ..." carrying the underlying exception. -/
inductive BridgeError
  | unavailable
  | commandError (cause : String)
deriving DecidableEq, Repr

/-- Observable outcome of one `send_command` call: its result, the bridge
state afterwards, how many `connect()` attempts it made, and whether it wrote
to the transport. -/
structure SendOutcome where
  result : Except BridgeError String
  bridge : UnityBridge
  connectAttempts : Nat
  wrote : Bool
deriving Repr

/-- `UnityBridge.connect` (lines 69-80): on success marks the connection live,
on any transport error marks it not-live; never raises. -/
def connect (connectOk : Bool) : UnityBridge × Bool :=
  ({ connected := connectOk }, connectOk)

/-- `UnityBridge.send_command` (lines 82-104).  `connectOk` is the outcome of
the `connect()` retry if one is attempted; `io` is the combined outcome of the
write/read/parse interaction (`.ok resp` = a response line was assembled and
parsed, `.error e` = some transport or parse exception `e`). -/
def send_command (b : UnityBridge) (connectOk : Bool) (io : Except String String) : SendOutcome :=
  let (b1, attempts) := if b.connected then (b, 0) else ((connect connectOk).1, 1)
  if b1.connected then
    match io with
    | .ok resp => { result := .ok resp, bridge := b1, connectAttempts := attempts, wrote := true }
    | .error e => { result := .error (.commandError e), bridge := { connected := false },
                    connectAttempts := attempts, wrote := true }
  else
    { result := .error .unavailable, bridge := b1, connectAttempts := attempts, wrote := false }

/-- One snapshot sent over the progress WebSocket (line 363): progress, status
and the last five log lines. -/
structure Snapshot where
  progress : Nat
  status : Status
  logs : List LogLine
deriving DecidableEq, Repr

/-- Python's `logs[-5:]`. -/
def lastN (n : Nat) (l : List LogLine) : List LogLine :=
  (l.reverse.take n).reverse

/-- The snapshot payload built from a job. -/
def snapshotOf (j : Job) : Snapshot :=
  ⟨j.progress, j.status, lastN 5 j.logs⟩

/-- `status in ["completed", "failed"]` (line 369). -/
def isTerminalStatus : Status → Bool
  | .completed => true
  | .failed => true
  | _ => false

/-- Result of a progress subscription: refused with a close code before any
snapshot, or a stream of snapshots (`finished` = the loop exited via the
terminal-status break rather than by running out of fuel). -/
inductive WsResult
  | refused (code : Nat)
  | stream (snapshots : List Snapshot) (finished : Bool)
deriving DecidableEq, Repr

/-- The polling loop of `websocket_progress` (lines 361-372): each iteration
reads the job (here: `states i`, the job state at the i-th poll), sends its
snapshot, and breaks if the status is terminal.  `fuel` bounds the number of
iterations modelled. -/
def wsLoop (states : Nat → Job) : Nat → Nat → List Snapshot × Bool
  | 0, _ => ([], false)
  | fuel + 1, i =>
    let s := snapshotOf (states i)
    if isTerminalStatus (states i).status then
      ([s], true)
    else
      let r := wsLoop states fuel (i + 1)
      (s :: r.1, r.2)

/-- `websocket_progress` (lines 351-376): accept, then if the identifier is
not in `prototypes_db` close immediately with code 4004 and send nothing;
otherwise run the polling loop. -/
def websocket_progress (db : List (String × Job)) (id : String) (states : Nat → Job)
    (fuel : Nat) : WsResult :=
  match List.lookup id db with
  | none => .refused 4004
  | some _ => let r := wsLoop states fuel 0; .stream r.1 r.2

/-! ### Small unfolding lemmas for the trace projections -/

@[simp] theorem runEvents_nil (j : Job) : runEvents j [] = j := rfl

@[simp] theorem runEvents_cons (j : Job) (e : Ev) (evs : List Ev) :
    runEvents j (e :: evs) = runEvents (applyEv j e) evs := rfl

@[simp] theorem progressVals_nil : progressVals [] = [] := rfl

@[simp] theorem progressVals_cons_setProgress (p : Nat) (l : List Ev) :
    progressVals (Ev.setProgress p :: l) = p :: progressVals l := rfl

@[simp] theorem progressVals_cons_setStatus (s : Status) (l : List Ev) :
    progressVals (Ev.setStatus s :: l) = progressVals l := rfl

@[simp] theorem progressVals_cons_appendLog (x : LogLine) (l : List Ev) :
    progressVals (Ev.appendLog x :: l) = progressVals l := rfl

@[simp] theorem progressVals_cons_setCompletedAt (l : List Ev) :
    progressVals (Ev.setCompletedAt :: l) = progressVals l := rfl

@[simp] theorem progressVals_cons_cmd (c : BridgeCmd) (l : List Ev) :
    progressVals (Ev.cmd c :: l) = progressVals l := rfl

@[simp] theorem cmdsOf_nil : cmdsOf [] = [] := rfl

@[simp] theorem cmdsOf_cons_cmd (c : BridgeCmd) (l : List Ev) :
    cmdsOf (Ev.cmd c :: l) = c :: cmdsOf l := rfl

@[simp] theorem cmdsOf_cons_setStatus (s : Status) (l : List Ev) :
    cmdsOf (Ev.setStatus s :: l) = cmdsOf l := rfl

@[simp] theorem cmdsOf_cons_setProgress (p : Nat) (l : List Ev) :
    cmdsOf (Ev.setProgress p :: l) = cmdsOf l := rfl

@[simp] theorem cmdsOf_cons_appendLog (x : LogLine) (l : List Ev) :
    cmdsOf (Ev.appendLog x :: l) = cmdsOf l := rfl

@[simp] theorem cmdsOf_cons_setCompletedAt (l : List Ev) :
    cmdsOf (Ev.setCompletedAt :: l) = cmdsOf l := rfl

@[simp] theorem logsOf_nil : logsOf [] = [] := rfl

@[simp] theorem logsOf_cons_appendLog (x : LogLine) (l : List Ev) :
    logsOf (Ev.appendLog x :: l) = x :: logsOf l := rfl

@[simp] theorem logsOf_cons_setStatus (s : Status) (l : List Ev) :
    logsOf (Ev.setStatus s :: l) = logsOf l := rfl

@[simp] theorem logsOf_cons_setProgress (p : Nat) (l : List Ev) :
    logsOf (Ev.setProgress p :: l) = logsOf l := rfl

@[simp] theorem logsOf_cons_setCompletedAt (l : List Ev) :
    logsOf (Ev.setCompletedAt :: l) = logsOf l := rfl

@[simp] theorem logsOf_cons_cmd (c : BridgeCmd) (l : List Ev) :
    logsOf (Ev.cmd c :: l) = logsOf l := rfl

@[simp] theorem statusVals_nil : statusVals [] = [] := rfl

@[simp] theorem statusVals_cons_setStatus (s : Status) (l : List Ev) :
    statusVals (Ev.setStatus s :: l) = s :: statusVals l := rfl

@[simp] theorem statusVals_cons_setProgress (p : Nat) (l : List Ev) :
    statusVals (Ev.setProgress p :: l) = statusVals l := rfl

@[simp] theorem statusVals_cons_appendLog (x : LogLine) (l : List Ev) :
    statusVals (Ev.appendLog x :: l) = statusVals l := rfl

@[simp] theorem statusVals_cons_setCompletedAt (l : List Ev) :
    statusVals (Ev.setCompletedAt :: l) = statusVals l := rfl

@[simp] theorem statusVals_cons_cmd (c : BridgeCmd) (l : List Ev) :
    statusVals (Ev.cmd c :: l) = statusVals l := rfl

/-! ### Replay lemmas: recovering the final job from an event trace -/

theorem runEvents_append (j : Job) (l₁ l₂ : List Ev) :
    runEvents j (l₁ ++ l₂) = runEvents (runEvents j l₁) l₂ :=
  List.foldl_append ..

theorem runEvents_status (evs : List Ev) : ∀ j : Job,
    (runEvents j evs).status = (statusVals evs).getLastD j.status := by
  induction evs with
  | nil => intro j; simp
  | cons e rest ih =>
    intro j
    cases e <;>
      simp only [runEvents_cons, statusVals_cons_setStatus, statusVals_cons_setProgress,
        statusVals_cons_appendLog, statusVals_cons_setCompletedAt, statusVals_cons_cmd,
        List.getLastD_cons, ih, applyEv]

theorem runEvents_progress (evs : List Ev) : ∀ j : Job,
    (runEvents j evs).progress = (progressVals evs).getLastD j.progress := by
  induction evs with
  | nil => intro j; simp
  | cons e rest ih =>
    intro j
    cases e <;>
      simp only [runEvents_cons, progressVals_cons_setProgress, progressVals_cons_setStatus,
        progressVals_cons_appendLog, progressVals_cons_setCompletedAt, progressVals_cons_cmd,
        List.getLastD_cons, ih, applyEv]

theorem runEvents_logs (evs : List Ev) : ∀ j : Job,
    (runEvents j evs).logs = j.logs ++ logsOf evs := by
  induction evs with
  | nil => intro j; simp
  | cons e rest ih =>
    intro j
    cases e <;>
      simp only [runEvents_cons, logsOf_cons_appendLog, logsOf_cons_setStatus,
        logsOf_cons_setProgress, logsOf_cons_setCompletedAt, logsOf_cons_cmd, ih, applyEv,
        List.append_assoc, List.singleton_append, List.append_nil]

theorem runEvents_completedAt (evs : List Ev) : ∀ j : Job,
    (runEvents j evs).completedAt = (j.completedAt || evs.any isSetCompletedAt) := by
  induction evs with
  | nil => intro j; simp
  | cons e rest ih =>
    intro j
    cases e <;>
      simp [isSetCompletedAt, ih, applyEv]

/-- Every single event only grows the log (append-only mutation). -/
theorem applyEv_logs_prefix (j : Job) (e : Ev) : j.logs <+: (applyEv j e).logs := by
  cases e <;> simp [applyEv]

/-- Along any replayed trace, each state's log is a prefix of the next one's:
log entries are never removed or rewritten. -/
theorem scanl_logs_monotone (evs : List Ev) : ∀ j : Job,
    List.Chain' (fun a b => a.logs <+: b.logs) (List.scanl applyEv j evs) := by
  induction evs with
  | nil => intro j; simp
  | cons e rest ih =>
    intro j
    rw [List.scanl_cons]
    cases hrest : List.scanl applyEv (applyEv j e) rest with
    | nil =>
      exact absurd hrest (by cases rest <;> simp [List.scanl])
    | cons b t =>
      have hb : b = applyEv j e := by
        have hh := congrArg List.head? hrest
        cases rest <;> simp [List.scanl] at hh <;> exact hh.symm
      have hc := ih (applyEv j e)
      rw [hrest] at hc
      refine List.Chain'.cons ?_ hc
      rw [hb]
      exact applyEv_logs_prefix j e

/-! ### Generic list helpers -/

theorem chain'_le_map_range' (g : Nat → Nat) (mono : ∀ a b : Nat, a ≤ b → g a ≤ g b) :
    ∀ n s : Nat, List.Chain' (· ≤ ·) ((List.range' s n).map g) := by
  intro n
  induction n with
  | zero => intro s; simp
  | succ m ih =>
    intro s
    rw [List.range'_succ]
    cases m with
    | zero => simp
    | succ m' =>
      rw [List.range'_succ, List.map_cons, List.map_cons, List.chain'_cons]
      refine ⟨mono s (s + 1) (Nat.le_succ s), ?_⟩
      have h := ih (s + 1)
      rw [List.range'_succ] at h
      simpa using h

theorem flatMap_eq_map_of_forall {α β : Type} (h : α → β) :
    ∀ (l : List α) (g : α → List β), (∀ a ∈ l, g a = [h a]) → l.flatMap g = l.map h := by
  intro l
  induction l with
  | nil => intro g _; rfl
  | cons a t ih =>
    intro g H
    rw [List.flatMap_cons, List.map_cons, H a (by simp), ih g (fun x hx => H x (by simp [hx]))]
    rfl

theorem filterMap_flatMap {α β γ : Type} (p : β → Option γ) :
    ∀ (l : List α) (g : α → List β),
      List.filterMap p (l.flatMap g) = l.flatMap (fun a => List.filterMap p (g a)) := by
  intro l
  induction l with
  | nil => intro g; rfl
  | cons a t ih =>
    intro g
    rw [List.flatMap_cons, List.filterMap_append, ih, List.flatMap_cons]

theorem map_range'_getD {α : Type} (dflt : α) :
    ∀ (l : List α) (s : Nat) (L : List α), L.drop s = l →
      (List.range' s l.length).map (fun i => L.getD i dflt) = l := by
  intro l
  induction l with
  | nil => intro s L _; simp
  | cons a t ih =>
    intro s L h
    have hget : L.getD s dflt = a := by
      have h0 : (L.drop s)[(0 : Nat)]? = L[s + 0]? := List.getElem?_drop L s 0
      rw [h] at h0
      simp at h0
      have h0' : L.get? s = some a := by rw [List.get?_eq_getElem?, ← h0]
      rw [List.getD_eq_getD_get?, h0']
      rfl
    have hdrop : L.drop (s + 1) = t := by
      have hdd : List.drop 1 (List.drop s L) = List.drop (s + 1) L := by
        rw [List.drop_drop]
      rw [← hdd, h]
      rfl
    rw [List.length_cons, List.range'_succ, List.map_cons, hget, ih (s + 1) L hdrop]

theorem append_cons_eq_of_not_mem {α : Type} {x : α} :
    ∀ {l₁ l₂ l₃ l₄ : List α}, x ∉ l₁ → x ∉ l₂ → l₁ ++ x :: l₂ = l₃ ++ x :: l₄ →
      l₁ = l₃ ∧ l₂ = l₄ := by
  intro l₁
  induction l₁ with
  | nil =>
    intro l₂ l₃ l₄ _ h2 h
    cases l₃ with
    | nil => simpa using h
    | cons b t =>
      simp only [List.nil_append, List.cons_append, List.cons.injEq] at h
      exact absurd (h.2 ▸ List.mem_append_right t (List.mem_cons_self x l₄)) h2
  | cons a t ih =>
    intro l₂ l₃ l₄ h1 h2 h
    cases l₃ with
    | nil =>
      simp only [List.cons_append, List.nil_append, List.cons.injEq] at h
      exact absurd (h.1 ▸ List.mem_cons_self a t) h1
    | cons b t3 =>
      simp only [List.cons_append, List.cons.injEq] at h
      obtain ⟨rfl, h'⟩ := h
      obtain ⟨he, ht⟩ := ih (fun hx => h1 (List.mem_cons_of_mem a hx)) h2 h'
      exact ⟨by rw [he], ht⟩

theorem getLastD_map_range' {α : Type} (g : Nat → α) (d : α) :
    ∀ q s : Nat, ((List.range' s q).map g).getLastD d = if q = 0 then d else g (s + q - 1) := by
  intro q
  induction q with
  | zero => intro s; simp
  | succ m _ =>
    intro s
    rw [List.range'_concat, List.map_append]
    simp

/-! ### Unfolding lemmas for the per-system bookkeeping functions -/

theorem countKnown_nil : countKnown [] = 0 := rfl

theorem countKnown_cons_some {k : String} {t : SystemTemplate} {rest : List String}
    (hk : List.lookup k SYSTEM_TEMPLATES = some t) :
    countKnown (k :: rest) = countKnown rest + 1 := by
  simp [countKnown, List.filterMap_cons, hk]

theorem countKnown_cons_none {k : String} {rest : List String}
    (hk : List.lookup k SYSTEM_TEMPLATES = none) :
    countKnown (k :: rest) = countKnown rest := by
  simp [countKnown, List.filterMap_cons, hk]

theorem importCmds_nil (name : String) : importCmds name [] = [] := rfl

theorem importCmds_cons_some {k : String} {t : SystemTemplate} {rest : List String}
    (name : String) (hk : List.lookup k SYSTEM_TEMPLATES = some t) :
    importCmds name (k :: rest) = importCmd name k t :: importCmds name rest := by
  simp [importCmds, List.filterMap_cons, hk]

theorem importCmds_cons_none {k : String} {rest : List String}
    (name : String) (hk : List.lookup k SYSTEM_TEMPLATES = none) :
    importCmds name (k :: rest) = importCmds name rest := by
  simp [importCmds, List.filterMap_cons, hk]

theorem knownLogs_nil : knownLogs [] = [] := rfl

theorem knownLogs_cons_some {k : String} {t : SystemTemplate} {rest : List String}
    (hk : List.lookup k SYSTEM_TEMPLATES = some t) :
    knownLogs (k :: rest) = LogLine.system t.name false :: knownLogs rest := by
  simp [knownLogs, List.filterMap_cons, hk]

theorem knownLogs_cons_none {k : String} {rest : List String}
    (hk : List.lookup k SYSTEM_TEMPLATES = none) :
    knownLogs (k :: rest) = knownLogs rest := by
  simp [knownLogs, List.filterMap_cons, hk]

theorem nthKnownPos_cons_some_zero {k : String} {t : SystemTemplate} {rest : List String}
    (hk : List.lookup k SYSTEM_TEMPLATES = some t) :
    nthKnownPos (k :: rest) 0 = 0 := by
  simp [nthKnownPos, hk]

theorem nthKnownPos_cons_some_succ {k : String} {t : SystemTemplate} {rest : List String}
    (r : Nat) (hk : List.lookup k SYSTEM_TEMPLATES = some t) :
    nthKnownPos (k :: rest) (r + 1) = nthKnownPos rest r + 1 := by
  simp [nthKnownPos, hk]

theorem nthKnownPos_cons_none {k : String} {rest : List String}
    (r : Nat) (hk : List.lookup k SYSTEM_TEMPLATES = none) :
    nthKnownPos (k :: rest) r = nthKnownPos rest r + 1 := by
  simp [nthKnownPos, hk]

theorem stepOnly_nil : stepOnly [] := by
  intro e he
  simp at he

theorem stepOnly_cons {e : Ev} {l : List Ev}
    (h1 : (∀ s, e ≠ Ev.setStatus s) ∧ e ≠ Ev.setCompletedAt) (h2 : stepOnly l) :
    stepOnly (e :: l) := by
  intro x hx
  rcases List.mem_cons.mp hx with rfl | hx
  · exact h1
  · exact h2 x hx

theorem stepOnly_append {l₁ l₂ : List Ev} (h1 : stepOnly l₁) (h2 : stepOnly l₂) :
    stepOnly (l₁ ++ l₂) := by
  intro x hx
  rcases List.mem_append.mp hx with hx | hx
  · exact h1 x hx
  · exact h2 x hx

theorem stepOnly_setProgress (p : Nat) :
    (∀ s, Ev.setProgress p ≠ Ev.setStatus s) ∧ Ev.setProgress p ≠ Ev.setCompletedAt := by
  refine ⟨fun s => ?_, ?_⟩ <;> simp

theorem stepOnly_appendLog (x : LogLine) :
    (∀ s, Ev.appendLog x ≠ Ev.setStatus s) ∧ Ev.appendLog x ≠ Ev.setCompletedAt := by
  refine ⟨fun s => ?_, ?_⟩ <;> simp

theorem stepOnly_cmd (c : BridgeCmd) :
    (∀ s, Ev.cmd c ≠ Ev.setStatus s) ∧ Ev.cmd c ≠ Ev.setCompletedAt := by
  refine ⟨fun s => ?_, ?_⟩ <;> simp

/-! ### The per-system loop: success case -/

theorem sysLoop_ok (oracle : Nat → Option String) (total : Nat) (name : String) :
    ∀ (systems : List String) (step ci : Nat),
      (∀ i, i < countKnown systems → oracle (ci + i) = none) →
      (sysLoop oracle total name systems step ci).err = none ∧
      (sysLoop oracle total name systems step ci).step = step + systems.length ∧
      (sysLoop oracle total name systems step ci).ci = ci + countKnown systems ∧
      progressVals (sysLoop oracle total name systems step ci).events =
        (List.range' (step + 1) systems.length).map (fun v => v * 100 / total) ∧
      cmdsOf (sysLoop oracle total name systems step ci).events = importCmds name systems ∧
      logsOf (sysLoop oracle total name systems step ci).events = knownLogs systems ∧
      stepOnly (sysLoop oracle total name systems step ci).events := by
  intro systems
  induction systems with
  | nil =>
    intro step ci _
    refine ⟨rfl, by simp [sysLoop], by simp [sysLoop, countKnown_nil], ?_, ?_, ?_, ?_⟩ <;>
      simp [sysLoop, importCmds_nil, knownLogs_nil, stepOnly_nil]
  | cons k rest ih =>
    intro step ci H
    cases hk : List.lookup k SYSTEM_TEMPLATES with
    | none =>
      have hck : countKnown (k :: rest) = countKnown rest := countKnown_cons_none hk
      have H' : ∀ i, i < countKnown rest → oracle (ci + i) = none := by
        intro i hi
        exact H i (by rw [hck]; exact hi)
      obtain ⟨e1, e2, e3, e4, e5, e6, e7⟩ := ih (step + 1) ci H'
      simp only [sysLoop, hk]
      refine ⟨e1, by rw [e2, List.length_cons]; omega, by rw [e3, hck], ?_, ?_, ?_, ?_⟩
      · rw [progressVals_cons_setProgress, e4, List.length_cons, List.range'_succ, List.map_cons]
      · rw [cmdsOf_cons_setProgress, e5, importCmds_cons_none name hk]
      · rw [logsOf_cons_setProgress, e6, knownLogs_cons_none hk]
      · exact stepOnly_cons (stepOnly_setProgress _) e7
    | some t =>
      have hck : countKnown (k :: rest) = countKnown rest + 1 := countKnown_cons_some hk
      have hc0 : oracle ci = none := by
        have := H 0 (by rw [hck]; omega)
        simpa using this
      have H' : ∀ i, i < countKnown rest → oracle (ci + 1 + i) = none := by
        intro i hi
        have := H (i + 1) (by rw [hck]; omega)
        have harith : ci + (i + 1) = ci + 1 + i := by omega
        rw [harith] at this
        exact this
      obtain ⟨e1, e2, e3, e4, e5, e6, e7⟩ := ih (step + 1) (ci + 1) H'
      simp only [sysLoop, hk, hc0]
      refine ⟨e1, by rw [e2, List.length_cons]; omega, by rw [e3, hck]; omega, ?_, ?_, ?_, ?_⟩
      · rw [progressVals_cons_appendLog, progressVals_cons_cmd, progressVals_cons_setProgress,
          e4, List.length_cons, List.range'_succ, List.map_cons]
      · rw [cmdsOf_cons_appendLog, cmdsOf_cons_cmd, cmdsOf_cons_setProgress, e5,
          importCmds_cons_some name hk]
      · rw [logsOf_cons_appendLog, logsOf_cons_cmd, logsOf_cons_setProgress, e6,
          knownLogs_cons_some hk]
      · exact stepOnly_cons (stepOnly_appendLog _)
          (stepOnly_cons (stepOnly_cmd _) (stepOnly_cons (stepOnly_setProgress _) e7))

/-! ### The per-system loop: a bridge command raises -/

theorem sysLoop_fail (oracle : Nat → Option String) (total : Nat) (name : String) :
    ∀ (systems : List String) (step ci r : Nat) (msg : String),
      r < countKnown systems →
      (∀ i, i < r → oracle (ci + i) = none) →
      oracle (ci + r) = some msg →
      (sysLoop oracle total name systems step ci).err = some msg ∧
      progressVals (sysLoop oracle total name systems step ci).events =
        (List.range' (step + 1) (nthKnownPos systems r)).map (fun v => v * 100 / total) ∧
      cmdsOf (sysLoop oracle total name systems step ci).events =
        (importCmds name systems).take (r + 1) ∧
      logsOf (sysLoop oracle total name systems step ci).events =
        (knownLogs systems).take (r + 1) ∧
      stepOnly (sysLoop oracle total name systems step ci).events ∧
      ∃ pre, (sysLoop oracle total name systems step ci).events =
        pre ++ [Ev.appendLog ((knownLogs systems).getD r (.scene false)),
                Ev.cmd ((importCmds name systems).getD r sceneCmd)] := by
  intro systems
  induction systems with
  | nil =>
    intro step ci r msg hr _ _
    rw [countKnown_nil] at hr
    omega
  | cons k rest ih =>
    intro step ci r msg hr Hlt Hk
    cases hk : List.lookup k SYSTEM_TEMPLATES with
    | none =>
      have hck : countKnown (k :: rest) = countKnown rest := countKnown_cons_none hk
      rw [hck] at hr
      obtain ⟨e1, e2, e3, e4, e5, ⟨pre, e6⟩⟩ := ih (step + 1) ci r msg hr Hlt Hk
      simp only [sysLoop, hk]
      refine ⟨e1, ?_, ?_, ?_, ?_, ?_⟩
      · rw [progressVals_cons_setProgress, e2, nthKnownPos_cons_none r hk,
          List.range'_succ, List.map_cons]
      · rw [cmdsOf_cons_setProgress, e3, importCmds_cons_none name hk]
      · rw [logsOf_cons_setProgress, e4, knownLogs_cons_none hk]
      · exact stepOnly_cons (stepOnly_setProgress _) e5
      · refine ⟨Ev.setProgress ((step + 1) * 100 / total) :: pre, ?_⟩
        rw [knownLogs_cons_none hk, importCmds_cons_none name hk]
        simp [e6]
    | some t =>
      have hck : countKnown (k :: rest) = countKnown rest + 1 := countKnown_cons_some hk
      cases r with
      | zero =>
        have hc : oracle ci = some msg := by simpa using Hk
        simp only [sysLoop, hk, hc]
        refine ⟨by trivial, ?_, ?_, ?_, ?_, ?_⟩
        · rw [nthKnownPos_cons_some_zero hk]
          simp
        · rw [importCmds_cons_some name hk]
          simp
        · rw [knownLogs_cons_some hk]
          simp
        · exact stepOnly_cons (stepOnly_appendLog _)
            (stepOnly_cons (stepOnly_cmd _) stepOnly_nil)
        · refine ⟨[], ?_⟩
          rw [knownLogs_cons_some hk, importCmds_cons_some name hk]
          simp
      | succ r' =>
        have hc0 : oracle ci = none := by
          have := Hlt 0 (by omega)
          simpa using this
        rw [hck] at hr
        have Hlt' : ∀ i, i < r' → oracle (ci + 1 + i) = none := by
          intro i hi
          have := Hlt (i + 1) (by omega)
          have harith : ci + (i + 1) = ci + 1 + i := by omega
          rw [harith] at this
          exact this
        have Hk' : oracle (ci + 1 + r') = some msg := by
          have harith : ci + (r' + 1) = ci + 1 + r' := by omega
          rw [harith] at Hk
          exact Hk
        obtain ⟨e1, e2, e3, e4, e5, ⟨pre, e6⟩⟩ :=
          ih (step + 1) (ci + 1) r' msg (by omega) Hlt' Hk'
        simp only [sysLoop, hk, hc0]
        refine ⟨e1, ?_, ?_, ?_, ?_, ?_⟩
        · rw [progressVals_cons_appendLog, progressVals_cons_cmd, progressVals_cons_setProgress,
            e2, nthKnownPos_cons_some_succ r' hk, List.range'_succ, List.map_cons]
        · rw [cmdsOf_cons_appendLog, cmdsOf_cons_cmd, cmdsOf_cons_setProgress, e3,
            importCmds_cons_some name hk, List.take_succ_cons]
        · rw [logsOf_cons_appendLog, logsOf_cons_cmd, logsOf_cons_setProgress, e4,
            knownLogs_cons_some hk, List.take_succ_cons]
        · exact stepOnly_cons (stepOnly_appendLog _)
            (stepOnly_cons (stepOnly_cmd _) (stepOnly_cons (stepOnly_setProgress _) e5))
        · refine ⟨Ev.appendLog (.system t.name false) :: Ev.cmd (importCmd name k t) ::
            Ev.setProgress ((step + 1) * 100 / total) :: pre, ?_⟩
          rw [knownLogs_cons_some hk, importCmds_cons_some name hk, List.getD_cons_succ,
            List.getD_cons_succ]
          simp [e6]

/-! ### The simulated path -/

theorem simStep_progressVals (systems : List String) (total i : Nat) :
    progressVals (simStepEvents systems total i) = [(i + 1) * 100 / total] := by
  unfold simStepEvents
  rw [progressVals_cons_setProgress]
  have hX : ∀ l : List Ev, (∀ e ∈ l, ∃ x, e = Ev.appendLog x) → progressVals l = [] := by
    intro l hl
    induction l with
    | nil => rfl
    | cons e t iht =>
      obtain ⟨x, rfl⟩ := hl e (by simp)
      rw [progressVals_cons_appendLog]
      exact iht fun e he => hl e (by simp [he])
  rw [hX]
  · intro e he
    split at he
    · exact ⟨_, by simpa using he⟩
    · split at he
      · split at he
        · exact ⟨_, by simpa using he⟩
        · simp at he
      · split at he
        · exact ⟨_, by simpa using he⟩
        · exact ⟨_, by simpa using he⟩

theorem simStep_cmdsOf (systems : List String) (total i : Nat) :
    cmdsOf (simStepEvents systems total i) = [] := by
  unfold simStepEvents
  rw [cmdsOf_cons_setProgress]
  split
  · rfl
  · split
    · split <;> rfl
    · split <;> rfl

theorem simStep_stepOnly (systems : List String) (total i : Nat) :
    stepOnly (simStepEvents systems total i) := by
  unfold simStepEvents
  refine stepOnly_cons (stepOnly_setProgress _) ?_
  split
  · exact stepOnly_cons (stepOnly_appendLog _) stepOnly_nil
  · split
    · split
      · exact stepOnly_cons (stepOnly_appendLog _) stepOnly_nil
      · exact stepOnly_nil
    · split <;> exact stepOnly_cons (stepOnly_appendLog _) stepOnly_nil

theorem simFlat_progressVals (systems : List String) (total : Nat) :
    progressVals ((List.range total).flatMap (simStepEvents systems total)) =
      (List.range' 1 total).map (fun v => v * 100 / total) := by
  rw [progressVals, filterMap_flatMap]
  have h1 : (List.range total).flatMap
      (fun i => List.filterMap
        (fun e => match e with | .setProgress p => some p | _ => none) (simStepEvents systems total i)) =
      (List.range total).map (fun i => (i + 1) * 100 / total) := by
    refine flatMap_eq_map_of_forall _ _ _ ?_
    intro i _
    exact simStep_progressVals systems total i
  rw [h1, List.range'_eq_map_range, List.map_map]
  refine List.map_congr_left ?_
  intro x _
  simp [Nat.add_comm]

theorem simFlat_cmdsOf (systems : List String) (total : Nat) :
    cmdsOf ((List.range total).flatMap (simStepEvents systems total)) = [] := by
  rw [cmdsOf, filterMap_flatMap]
  have h1 : ∀ i ∈ List.range total,
      List.filterMap
        (fun e => match e with | .cmd c => some c | _ => none) (simStepEvents systems total i) = [] := by
    intro i _
    exact simStep_cmdsOf systems total i
  rw [List.flatMap_eq_nil_iff.mpr]
  intro i hi
  exact h1 i hi

theorem simFlat_stepOnly (systems : List String) (total : Nat) :
    stepOnly ((List.range total).flatMap (simStepEvents systems total)) := by
  intro e he
  obtain ⟨i, _, he2⟩ := List.mem_flatMap.mp he
  exact simStep_stepOnly systems total i e he2

theorem stepOnly_no_completedAt {l : List Ev} (h : stepOnly l) :
    l.any isSetCompletedAt = false := by
  rw [List.any_eq_false]
  intro e he hc
  have h2 := (h e he).2
  cases e <;> simp [isSetCompletedAt] at hc
  exact h2 rfl

theorem stepOnly_no_status {l : List Ev} (h : stepOnly l) : statusVals l = [] := by
  induction l with
  | nil => rfl
  | cons e t ih =>
    have h1 := (h e (by simp)).1
    have ht : stepOnly t := fun x hx => h x (by simp [hx])
    cases e with
    | setStatus s => exact absurd rfl (h1 s)
    | setProgress p => rw [statusVals_cons_setProgress]; exact ih ht
    | appendLog x => rw [statusVals_cons_appendLog]; exact ih ht
    | setCompletedAt => rw [statusVals_cons_setCompletedAt]; exact ih ht
    | cmd c => rw [statusVals_cons_cmd]; exact ih ht

theorem simStep_logsOf_zero (systems : List String) (total : Nat) :
    logsOf (simStepEvents systems total 0) = [.scene true] := by
  unfold simStepEvents
  rw [logsOf_cons_setProgress, if_pos rfl]
  rfl

theorem simStep_logsOf_mid (systems : List String) (total i : Nat)
    (h1 : 1 ≤ i) (h2 : i < systems.length + 1) :
    logsOf (simStepEvents systems total i) = [.system (systems.getD (i - 1) "") true] := by
  unfold simStepEvents
  rw [logsOf_cons_setProgress, if_neg (by omega), if_pos h2]
  cases hq : systems.get? (i - 1) with
  | none =>
    exfalso
    have := List.get?_eq_none.mp hq
    omega
  | some k =>
    have hgd : systems.getD (i - 1) "" = k := by
      rw [List.getD_eq_getD_get?, hq]
      rfl
    rw [hgd]
    rfl

theorem simStep_logsOf_player (systems : List String) :
    logsOf (simStepEvents systems (total_steps systems) (systems.length + 1)) = [.player true] := by
  unfold simStepEvents total_steps
  rw [logsOf_cons_setProgress, if_neg (by omega), if_neg (by omega), if_pos (by omega)]
  rfl

theorem simStep_logsOf_ui (systems : List String) :
    logsOf (simStepEvents systems (total_steps systems) (systems.length + 2)) = [.ui true] := by
  unfold simStepEvents total_steps
  rw [logsOf_cons_setProgress, if_neg (by omega), if_neg (by omega), if_neg (by omega)]
  rfl

theorem range_total_split (len : Nat) :
    List.range (len + 3) = [0] ++ List.range' 1 len ++ [len + 1, len + 2] := by
  rw [List.range_eq_range']
  have h1 : List.range' 0 1 ++ List.range' (0 + 1 * 1) (len + 2) 1 = List.range' 0 ((len + 2) + 1) :=
    List.range'_append 0 1 (len + 2) 1
  have h2 : List.range' 1 len ++ List.range' (1 + 1 * len) 2 1 = List.range' 1 (2 + len) :=
    List.range'_append 1 len 2 1
  have e1 : (len + 2) + 1 = len + 3 := by omega
  have e2 : 2 + len = len + 2 := by omega
  rw [e1] at h1
  rw [e2] at h2
  rw [← h1]
  have e3 : (0 : Nat) + 1 * 1 = 1 := by omega
  rw [e3, ← h2]
  have e4 : (1 : Nat) + 1 * len = len + 1 := by omega
  rw [e4]
  have h5 : List.range' (len + 1) 2 1 = [len + 1, len + 2] := by
    simp [List.range'_succ]
  rw [h5]
  simp [List.range'_succ, List.append_assoc]

theorem simFlat_logsOf (systems : List String) :
    logsOf ((List.range (total_steps systems)).flatMap
        (simStepEvents systems (total_steps systems))) =
      .scene true :: (systems.map (fun k => LogLine.system k true) ++ [.player true, .ui true]) := by
  rw [logsOf, filterMap_flatMap]
  have hr : List.range (total_steps systems) =
      [0] ++ List.range' 1 systems.length ++ [systems.length + 1, systems.length + 2] :=
    range_total_split systems.length
  rw [hr, List.flatMap_append, List.flatMap_append]
  have hz : ([0] : List Nat).flatMap (fun i => List.filterMap
      (fun e => match e with | Ev.appendLog l => some l | _ => none)
      (simStepEvents systems (total_steps systems) i)) = [.scene true] := by
    rw [List.flatMap_cons]
    rw [show (List.filterMap (fun e => match e with | Ev.appendLog l => some l | _ => none)
      (simStepEvents systems (total_steps systems) 0)) =
        logsOf (simStepEvents systems (total_steps systems) 0) from rfl]
    rw [simStep_logsOf_zero]
    rfl
  have hmid : (List.range' 1 systems.length).flatMap (fun i => List.filterMap
      (fun e => match e with | Ev.appendLog l => some l | _ => none)
      (simStepEvents systems (total_steps systems) i)) =
      systems.map (fun k => LogLine.system k true) := by
    have hforall : ∀ i ∈ List.range' 1 systems.length,
        List.filterMap (fun e => match e with | Ev.appendLog l => some l | _ => none)
          (simStepEvents systems (total_steps systems) i) =
        [LogLine.system (systems.getD (i - 1) "") true] := by
      intro i hi
      obtain ⟨hi1, hi2⟩ := List.mem_range'_1.mp hi
      exact simStep_logsOf_mid systems (total_steps systems) i hi1 (by omega)
    rw [flatMap_eq_map_of_forall (fun i => LogLine.system (systems.getD (i - 1) "") true) _ _ hforall]
    have hmm : (List.range' 1 systems.length).map (fun i => LogLine.system (systems.getD (i - 1) "") true) =
        ((List.range' 1 systems.length).map (fun i => systems.getD (i - 1) "")).map
          (fun s => LogLine.system s true) := by
      rw [List.map_map]
      rfl
    rw [hmm]
    have hinner : (List.range' 1 systems.length).map (fun i => systems.getD (i - 1) "") = systems := by
      rw [List.range'_eq_map_range, List.map_map]
      have hcong : (List.range systems.length).map ((fun i => systems.getD (i - 1) "") ∘ (fun x => 1 + x)) =
          (List.range systems.length).map (fun i => systems.getD i "") := by
        refine List.map_congr_left ?_
        intro x _
        simp
      rw [hcong, List.range_eq_range', map_range'_getD "" systems 0 systems (List.drop_zero systems)]
    rw [hinner]
  have hend : ([systems.length + 1, systems.length + 2] : List Nat).flatMap
      (fun i => List.filterMap (fun e => match e with | Ev.appendLog l => some l | _ => none)
        (simStepEvents systems (total_steps systems) i)) = [.player true, .ui true] := by
    rw [List.flatMap_cons, List.flatMap_cons]
    rw [show (List.filterMap (fun e => match e with | Ev.appendLog l => some l | _ => none)
      (simStepEvents systems (total_steps systems) (systems.length + 1))) =
        logsOf (simStepEvents systems (total_steps systems) (systems.length + 1)) from rfl]
    rw [show (List.filterMap (fun e => match e with | Ev.appendLog l => some l | _ => none)
      (simStepEvents systems (total_steps systems) (systems.length + 2))) =
        logsOf (simStepEvents systems (total_steps systems) (systems.length + 2)) from rfl]
    rw [simStep_logsOf_player, simStep_logsOf_ui]
    rfl
  rw [hz, hmid, hend]
  rfl

/-! ### Projections distribute over append -/

@[simp] theorem progressVals_append (l₁ l₂ : List Ev) :
    progressVals (l₁ ++ l₂) = progressVals l₁ ++ progressVals l₂ :=
  List.filterMap_append ..

@[simp] theorem cmdsOf_append (l₁ l₂ : List Ev) :
    cmdsOf (l₁ ++ l₂) = cmdsOf l₁ ++ cmdsOf l₂ :=
  List.filterMap_append ..

@[simp] theorem logsOf_append (l₁ l₂ : List Ev) :
    logsOf (l₁ ++ l₂) = logsOf l₁ ++ logsOf l₂ :=
  List.filterMap_append ..

@[simp] theorem statusVals_append (l₁ l₂ : List Ev) :
    statusVals (l₁ ++ l₂) = statusVals l₁ ++ statusVals l₂ :=
  List.filterMap_append ..

/-! ### The two branches of the engine, characterized -/

/-- Shape and projections of a run that takes the simulated path
(initial connect failed). -/
theorem gen_sim_spec (oracle : Nat → Option String) (j : Job) :
    generate_prototype false oracle j =
      [Ev.setStatus .generating, Ev.appendLog .started] ++
        ((List.range (total_steps j.systems)).flatMap
          (simStepEvents j.systems (total_steps j.systems))) ++
        [Ev.setStatus .completed, Ev.setCompletedAt, Ev.appendLog (.done true)] ∧
    progressVals (generate_prototype false oracle j) =
      (List.range' 1 (total_steps j.systems)).map (fun v => v * 100 / total_steps j.systems) ∧
    cmdsOf (generate_prototype false oracle j) = [] ∧
    logsOf (generate_prototype false oracle j) =
      [LogLine.started, LogLine.scene true] ++
        j.systems.map (fun k => LogLine.system k true) ++
        [LogLine.player true, LogLine.ui true, LogLine.done true] ∧
    statusVals (generate_prototype false oracle j) = [.generating, .completed] ∧
    (generate_prototype false oracle j).any isSetCompletedAt = true := by
  have hshape : generate_prototype false oracle j =
      [Ev.setStatus .generating, Ev.appendLog .started] ++
        ((List.range (total_steps j.systems)).flatMap
          (simStepEvents j.systems (total_steps j.systems))) ++
        [Ev.setStatus .completed, Ev.setCompletedAt, Ev.appendLog (.done true)] := by
    unfold generate_prototype simulate_generation
    simp
  refine ⟨hshape, ?_, ?_, ?_, ?_, ?_⟩
  · rw [hshape]
    simp only [progressVals_append, simFlat_progressVals]
    simp
  · rw [hshape]
    simp only [cmdsOf_append, simFlat_cmdsOf]
    simp
  · rw [hshape]
    simp only [logsOf_append, simFlat_logsOf]
    simp
  · rw [hshape]
    simp only [statusVals_append, stepOnly_no_status (simFlat_stepOnly j.systems (total_steps j.systems))]
    simp [statusVals]
  · rw [hshape]
    simp [isSetCompletedAt]

/-- Shape and projections of a bridge-path run in which every issued command
succeeds. -/
theorem gen_ok_spec (oracle : Nat → Option String) (j : Job)
    (H : ∀ i, i < countKnown j.systems + 3 → oracle i = none) :
    (∃ mid, generate_prototype true oracle j =
      [Ev.setStatus .generating, Ev.appendLog .started] ++ mid ++
        [Ev.setStatus .completed, Ev.setCompletedAt, Ev.appendLog (.done false)] ∧
      stepOnly mid) ∧
    progressVals (generate_prototype true oracle j) =
      (List.range' 1 (total_steps j.systems)).map (fun v => v * 100 / total_steps j.systems) ∧
    cmdsOf (generate_prototype true oracle j) = cmdList j.name j.gameType j.systems ∧
    logsOf (generate_prototype true oracle j) =
      [LogLine.started, LogLine.scene false] ++ knownLogs j.systems ++
        [LogLine.player false, LogLine.ui false, LogLine.done false] ∧
    statusVals (generate_prototype true oracle j) = [.generating, .completed] ∧
    (generate_prototype true oracle j).any isSetCompletedAt = true := by
  have h0 : oracle 0 = none := H 0 (by omega)
  obtain ⟨e1, e2, e3, e4, e5, e6, e7⟩ :=
    sysLoop_ok oracle (total_steps j.systems) j.name j.systems 1 1
      (fun i hi => by
        have := H (i + 1) (by omega)
        have harith : i + 1 = 1 + i := by omega
        rw [harith] at this
        exact this)
  have hplayer : oracle (sysLoop oracle (total_steps j.systems) j.name j.systems 1 1).ci = none := by
    rw [e3]
    exact H (1 + countKnown j.systems) (by omega)
  have hui : oracle ((sysLoop oracle (total_steps j.systems) j.name j.systems 1 1).ci + 1) = none := by
    rw [e3]
    have := H (countKnown j.systems + 2) (by omega)
    have harith : countKnown j.systems + 2 = 1 + countKnown j.systems + 1 := by omega
    rw [harith] at this
    exact this
  have hshape : generate_prototype true oracle j =
      [Ev.setStatus .generating, Ev.appendLog .started] ++
        (Ev.appendLog (.scene false) :: Ev.cmd sceneCmd ::
          Ev.setProgress (1 * 100 / total_steps j.systems) ::
          ((sysLoop oracle (total_steps j.systems) j.name j.systems 1 1).events ++
            [Ev.appendLog (.player false), Ev.cmd (playerCmd j.gameType j.systems),
             Ev.setProgress
               (((sysLoop oracle (total_steps j.systems) j.name j.systems 1 1).step + 1) * 100 /
                 total_steps j.systems),
             Ev.appendLog (.ui false), Ev.cmd (uiCmd j.systems),
             Ev.setProgress 100])) ++
        [Ev.setStatus .completed, Ev.setCompletedAt, Ev.appendLog (.done false)] := by
    unfold generate_prototype
    simp only [h0, e1, hplayer, hui]
    simp
  refine ⟨⟨_, hshape, ?_⟩, ?_, ?_, ?_, ?_, ?_⟩
  · refine stepOnly_cons (stepOnly_appendLog _) (stepOnly_cons (stepOnly_cmd _)
      (stepOnly_cons (stepOnly_setProgress _) (stepOnly_append e7 ?_)))
    refine stepOnly_cons (stepOnly_appendLog _) (stepOnly_cons (stepOnly_cmd _)
      (stepOnly_cons (stepOnly_setProgress _) (stepOnly_cons (stepOnly_appendLog _)
      (stepOnly_cons (stepOnly_cmd _) (stepOnly_cons (stepOnly_setProgress _) stepOnly_nil)))))
  · rw [hshape]
    simp only [progressVals_append, progressVals_cons_appendLog, progressVals_cons_cmd,
      progressVals_cons_setProgress, e4, e2]
    have hsplit : List.range' 1 (total_steps j.systems) =
        (1 :: List.range' 2 j.systems.length) ++
          [j.systems.length + 2, j.systems.length + 3] := by
      have hA : List.range' 1 (j.systems.length + 2 + 1) =
          List.range' 1 (j.systems.length + 2) ++ [1 + 1 * (j.systems.length + 2)] :=
        List.range'_concat 1 (j.systems.length + 2)
      have hB : List.range' 1 (j.systems.length + 1 + 1) =
          List.range' 1 (j.systems.length + 1) ++ [1 + 1 * (j.systems.length + 1)] :=
        List.range'_concat 1 (j.systems.length + 1)
      have hC : List.range' 1 (j.systems.length + 1) = 1 :: List.range' 2 j.systems.length :=
        List.range'_succ ..
      show List.range' 1 (j.systems.length + 3) = _
      have e1' : j.systems.length + 3 = j.systems.length + 2 + 1 := by omega
      have e2' : j.systems.length + 2 = j.systems.length + 1 + 1 := by omega
      rw [e1', hA, e2', hB, hC]
      have e3' : 1 + 1 * (j.systems.length + 1) = j.systems.length + 2 := by omega
      have e4' : 1 + 1 * (j.systems.length + 1 + 1) = j.systems.length + 3 := by omega
      rw [e3', e4']
      simp
    rw [hsplit]
    rw [List.map_append, List.map_cons]
    have hlast : (100 : Nat) = (j.systems.length + 3) * 100 / (j.systems.length + 3) := by
      rw [Nat.mul_div_cancel_left 100 (by omega : 0 < j.systems.length + 3)]
    have harith2 : (1 + j.systems.length + 1) = j.systems.length + 2 := by omega
    rw [harith2]
    simp only [List.map_cons, List.map_nil, total_steps]
    rw [← hlast]
    simp
  · rw [hshape]
    simp only [cmdsOf_append, cmdsOf_cons_appendLog, cmdsOf_cons_cmd, cmdsOf_cons_setProgress, e5]
    simp [cmdList]
  · rw [hshape]
    simp only [logsOf_append, logsOf_cons_appendLog, logsOf_cons_cmd, logsOf_cons_setProgress, e6]
    simp
  · rw [hshape]
    simp only [statusVals_append, statusVals_cons_appendLog, statusVals_cons_cmd,
      statusVals_cons_setProgress, stepOnly_no_status e7]
    simp
  · rw [hshape]
    simp only [stepOnly_no_completedAt e7, List.any_append, List.any_cons]
    simp [isSetCompletedAt]

theorem importCmds_length (name : String) :
    ∀ systems : List String, (importCmds name systems).length = countKnown systems := by
  intro systems
  induction systems with
  | nil => rfl
  | cons k rest ih =>
    cases hk : List.lookup k SYSTEM_TEMPLATES with
    | none => rw [importCmds_cons_none name hk, countKnown_cons_none hk, ih]
    | some t =>
      rw [importCmds_cons_some name hk, countKnown_cons_some hk, List.length_cons, ih]

theorem knownLogs_length :
    ∀ systems : List String, (knownLogs systems).length = countKnown systems := by
  intro systems
  induction systems with
  | nil => rfl
  | cons k rest ih =>
    cases hk : List.lookup k SYSTEM_TEMPLATES with
    | none => rw [knownLogs_cons_none hk, countKnown_cons_none hk, ih]
    | some t =>
      rw [knownLogs_cons_some hk, countKnown_cons_some hk, List.length_cons, ih]

theorem cmdList_length (name gameType : String) (systems : List String) :
    (cmdList name gameType systems).length = countKnown systems + 3 := by
  simp [cmdList, importCmds_length]

theorem take_append_left {α : Type} (l₁ l₂ : List α) {n : Nat} (h : n ≤ l₁.length) :
    (l₁ ++ l₂).take n = l₁.take n := by
  rw [List.take_append_eq_append_take, Nat.sub_eq_zero_of_le h]
  simp

theorem knownLogs_no_error {systems : List String} {l : LogLine} (hl : l ∈ knownLogs systems) :
    isErrLine l = false := by
  obtain ⟨k, _, hk⟩ := List.mem_filterMap.mp hl
  cases hq : List.lookup k SYSTEM_TEMPLATES with
  | none => rw [hq] at hk; simp at hk
  | some t =>
    rw [hq] at hk
    simp at hk
    rw [← hk]
    rfl

/-- Shape and projections of a bridge-path run whose k-th command raises,
all earlier commands having succeeded. -/
theorem gen_fail_spec (oracle : Nat → Option String) (j : Job) (k : Nat) (msg : String)
    (hk : k < countKnown j.systems + 3)
    (Hlt : ∀ i, i < k → oracle i = none)
    (Hk : oracle k = some msg) :
    (∃ mid, generate_prototype true oracle j =
      [Ev.setStatus .generating, Ev.appendLog .started] ++ mid ++
        [Ev.setStatus .failed, Ev.appendLog (.error msg)] ∧
      stepOnly mid ∧
      ∃ mid2, mid = mid2 ++ [Ev.appendLog (cmdLogAt j.systems k),
        Ev.cmd ((cmdList j.name j.gameType j.systems).getD k sceneCmd)]) ∧
    progressVals (generate_prototype true oracle j) =
      (List.range' 1 (stepsBeforeCmd j.systems k)).map (fun v => v * 100 / total_steps j.systems) ∧
    cmdsOf (generate_prototype true oracle j) =
      (cmdList j.name j.gameType j.systems).take (k + 1) ∧
    logsOf (generate_prototype true oracle j) =
      (LogLine.started :: LogLine.scene false ::
        ((knownLogs j.systems ++ [LogLine.player false, LogLine.ui false]).take k)) ++
        [LogLine.error msg] ∧
    statusVals (generate_prototype true oracle j) = [.generating, .failed] ∧
    (generate_prototype true oracle j).any isSetCompletedAt = false := by
  have hkl : (knownLogs j.systems).length = countKnown j.systems := knownLogs_length j.systems
  have hil : (importCmds j.name j.systems).length = countKnown j.systems :=
    importCmds_length j.name j.systems
  cases k with
  | zero =>
    have hshape : generate_prototype true oracle j =
        [Ev.setStatus .generating, Ev.appendLog .started] ++
          [Ev.appendLog (.scene false), Ev.cmd sceneCmd] ++
          [Ev.setStatus .failed, Ev.appendLog (.error msg)] := by
      unfold generate_prototype
      simp only [Hk]
      simp
    refine ⟨⟨[Ev.appendLog (.scene false), Ev.cmd sceneCmd], hshape, ?_, ⟨[], ?_⟩⟩,
      ?_, ?_, ?_, ?_, ?_⟩
    · exact stepOnly_cons (stepOnly_appendLog _) (stepOnly_cons (stepOnly_cmd _) stepOnly_nil)
    · simp [cmdLogAt, cmdList]
    · rw [hshape]
      simp [stepsBeforeCmd]
    · rw [hshape]
      simp [cmdList]
    · rw [hshape]
      simp
    · rw [hshape]
      simp
    · rw [hshape]
      simp [isSetCompletedAt]
  | succ r =>
    have h0 : oracle 0 = none := Hlt 0 (by omega)
    by_cases hcase : r < countKnown j.systems
    · obtain ⟨f1, f2, f3, f4, f5, pre, f6⟩ :=
        sysLoop_fail oracle (total_steps j.systems) j.name j.systems 1 1 r msg hcase
          (fun i hi => by
            have := Hlt (i + 1) (by omega)
            have ha : i + 1 = 1 + i := by omega
            rw [ha] at this
            exact this)
          (by
            have ha : 1 + r = r + 1 := by omega
            rw [ha]
            exact Hk)
      have hshape : generate_prototype true oracle j =
          [Ev.setStatus .generating, Ev.appendLog .started] ++
            (Ev.appendLog (.scene false) :: Ev.cmd sceneCmd ::
              Ev.setProgress (1 * 100 / total_steps j.systems) ::
              (sysLoop oracle (total_steps j.systems) j.name j.systems 1 1).events) ++
            [Ev.setStatus .failed, Ev.appendLog (.error msg)] := by
        unfold generate_prototype
        simp only [h0, f1]
        simp
      refine ⟨⟨_, hshape, ?_, ?_⟩, ?_, ?_, ?_, ?_, ?_⟩
      · exact stepOnly_cons (stepOnly_appendLog _)
          (stepOnly_cons (stepOnly_cmd _) (stepOnly_cons (stepOnly_setProgress _) f5))
      · refine ⟨Ev.appendLog (.scene false) :: Ev.cmd sceneCmd ::
          Ev.setProgress (1 * 100 / total_steps j.systems) :: pre, ?_⟩
        have hlog : cmdLogAt j.systems (r + 1) = (knownLogs j.systems).getD r (.scene false) := by
          unfold cmdLogAt
          rw [List.getD_cons_succ]
          exact List.getD_append _ _ _ _ (by omega)
        have hcmd : (cmdList j.name j.gameType j.systems).getD (r + 1) sceneCmd =
            (importCmds j.name j.systems).getD r sceneCmd := by
          unfold cmdList
          rw [List.getD_cons_succ]
          exact List.getD_append _ _ _ _ (by omega)
        rw [hlog, hcmd, f6]
        simp
      · rw [hshape]
        simp only [progressVals_append, progressVals_cons_appendLog, progressVals_cons_cmd,
          progressVals_cons_setProgress, f2]
        have hsb : stepsBeforeCmd j.systems (r + 1) = nthKnownPos j.systems r + 1 := by
          unfold stepsBeforeCmd
          rw [if_neg (by omega), if_pos (by omega)]
          simp
        rw [hsb, List.range'_succ, List.map_cons]
        simp
      · rw [hshape]
        simp only [cmdsOf_append, cmdsOf_cons_appendLog, cmdsOf_cons_cmd,
          cmdsOf_cons_setProgress, f3]
        unfold cmdList
        rw [List.take_succ_cons, take_append_left _ _ (by omega)]
        simp
      · rw [hshape]
        simp only [logsOf_append, logsOf_cons_appendLog, logsOf_cons_cmd,
          logsOf_cons_setProgress, f4]
        rw [take_append_left _ _ (by omega)]
        simp
      · rw [hshape]
        simp only [statusVals_append, statusVals_cons_appendLog, statusVals_cons_cmd,
          statusVals_cons_setProgress, stepOnly_no_status f5]
        simp
      · rw [hshape]
        simp only [stepOnly_no_completedAt f5, List.any_append, List.any_cons]
        simp [isSetCompletedAt]
    · obtain ⟨e1, e2, e3, e4, e5, e6, e7⟩ :=
        sysLoop_ok oracle (total_steps j.systems) j.name j.systems 1 1
          (fun i hi => by
            have := Hlt (i + 1) (by omega)
            have ha : i + 1 = 1 + i := by omega
            rw [ha] at this
            exact this)
      by_cases hpm : r = countKnown j.systems
      · have hplayer :
            oracle (sysLoop oracle (total_steps j.systems) j.name j.systems 1 1).ci = some msg := by
          rw [e3]
          have ha : 1 + countKnown j.systems = r + 1 := by omega
          rw [ha]
          exact Hk
        have hshape : generate_prototype true oracle j =
            [Ev.setStatus .generating, Ev.appendLog .started] ++
              (Ev.appendLog (.scene false) :: Ev.cmd sceneCmd ::
                Ev.setProgress (1 * 100 / total_steps j.systems) ::
                ((sysLoop oracle (total_steps j.systems) j.name j.systems 1 1).events ++
                  [Ev.appendLog (.player false), Ev.cmd (playerCmd j.gameType j.systems)])) ++
              [Ev.setStatus .failed, Ev.appendLog (.error msg)] := by
          unfold generate_prototype
          simp only [h0, e1, hplayer]
          simp
        refine ⟨⟨_, hshape, ?_, ?_⟩, ?_, ?_, ?_, ?_, ?_⟩
        · refine stepOnly_cons (stepOnly_appendLog _) (stepOnly_cons (stepOnly_cmd _)
            (stepOnly_cons (stepOnly_setProgress _) (stepOnly_append e7 ?_)))
          exact stepOnly_cons (stepOnly_appendLog _) (stepOnly_cons (stepOnly_cmd _) stepOnly_nil)
        · refine ⟨Ev.appendLog (.scene false) :: Ev.cmd sceneCmd ::
            Ev.setProgress (1 * 100 / total_steps j.systems) ::
            (sysLoop oracle (total_steps j.systems) j.name j.systems 1 1).events, ?_⟩
          have hlog : cmdLogAt j.systems (r + 1) = .player false := by
            unfold cmdLogAt
            rw [List.getD_cons_succ, List.getD_append_right _ _ _ _ (by omega)]
            have ha : r - (knownLogs j.systems).length = 0 := by omega
            rw [ha]
            rfl
          have hcmd : (cmdList j.name j.gameType j.systems).getD (r + 1) sceneCmd =
              playerCmd j.gameType j.systems := by
            unfold cmdList
            rw [List.getD_cons_succ, List.getD_append_right _ _ _ _ (by omega)]
            have ha : r - (importCmds j.name j.systems).length = 0 := by omega
            rw [ha]
            rfl
          rw [hlog, hcmd]
          simp
        · rw [hshape]
          simp only [progressVals_append, progressVals_cons_appendLog, progressVals_cons_cmd,
            progressVals_cons_setProgress, e4]
          have hsb : stepsBeforeCmd j.systems (r + 1) = j.systems.length + 1 := by
            unfold stepsBeforeCmd
            rw [if_neg (by omega), if_neg (by omega)]
            omega
          rw [hsb, List.range'_succ, List.map_cons]
          simp
        · rw [hshape]
          simp only [cmdsOf_append, cmdsOf_cons_appendLog, cmdsOf_cons_cmd,
            cmdsOf_cons_setProgress, e5]
          unfold cmdList
          rw [List.take_succ_cons, List.take_append_eq_append_take,
            List.take_of_length_le (by omega)]
          have ha : r + 1 - (importCmds j.name j.systems).length = 1 := by omega
          rw [ha]
          simp
        · rw [hshape]
          simp only [logsOf_append, logsOf_cons_appendLog, logsOf_cons_cmd,
            logsOf_cons_setProgress, e6]
          rw [List.take_append_eq_append_take, List.take_of_length_le (by omega)]
          have ha : r + 1 - (knownLogs j.systems).length = 1 := by omega
          rw [ha]
          simp
        · rw [hshape]
          simp only [statusVals_append, statusVals_cons_appendLog, statusVals_cons_cmd,
            statusVals_cons_setProgress, stepOnly_no_status e7]
          simp
        · rw [hshape]
          simp only [stepOnly_no_completedAt e7, List.any_append, List.any_cons]
          simp [isSetCompletedAt]
      · have hr2 : r = countKnown j.systems + 1 := by omega
        have hplayer :
            oracle (sysLoop oracle (total_steps j.systems) j.name j.systems 1 1).ci = none := by
          rw [e3]
          exact Hlt (1 + countKnown j.systems) (by omega)
        have hui :
            oracle ((sysLoop oracle (total_steps j.systems) j.name j.systems 1 1).ci + 1) =
              some msg := by
          rw [e3]
          have ha : 1 + countKnown j.systems + 1 = r + 1 := by omega
          rw [ha]
          exact Hk
        have hshape : generate_prototype true oracle j =
            [Ev.setStatus .generating, Ev.appendLog .started] ++
              (Ev.appendLog (.scene false) :: Ev.cmd sceneCmd ::
                Ev.setProgress (1 * 100 / total_steps j.systems) ::
                ((sysLoop oracle (total_steps j.systems) j.name j.systems 1 1).events ++
                  [Ev.appendLog (.player false), Ev.cmd (playerCmd j.gameType j.systems),
                   Ev.setProgress
                     (((sysLoop oracle (total_steps j.systems) j.name j.systems 1 1).step + 1) *
                       100 / total_steps j.systems),
                   Ev.appendLog (.ui false), Ev.cmd (uiCmd j.systems)])) ++
              [Ev.setStatus .failed, Ev.appendLog (.error msg)] := by
          unfold generate_prototype
          simp only [h0, e1, hplayer, hui]
          simp
        refine ⟨⟨_, hshape, ?_, ?_⟩, ?_, ?_, ?_, ?_, ?_⟩
        · refine stepOnly_cons (stepOnly_appendLog _) (stepOnly_cons (stepOnly_cmd _)
            (stepOnly_cons (stepOnly_setProgress _) (stepOnly_append e7 ?_)))
          exact stepOnly_cons (stepOnly_appendLog _) (stepOnly_cons (stepOnly_cmd _)
            (stepOnly_cons (stepOnly_setProgress _)
              (stepOnly_cons (stepOnly_appendLog _) (stepOnly_cons (stepOnly_cmd _) stepOnly_nil))))
        · refine ⟨Ev.appendLog (.scene false) :: Ev.cmd sceneCmd ::
            Ev.setProgress (1 * 100 / total_steps j.systems) ::
            ((sysLoop oracle (total_steps j.systems) j.name j.systems 1 1).events ++
              [Ev.appendLog (.player false), Ev.cmd (playerCmd j.gameType j.systems),
               Ev.setProgress
                 (((sysLoop oracle (total_steps j.systems) j.name j.systems 1 1).step + 1) *
                   100 / total_steps j.systems)]), ?_⟩
          have hlog : cmdLogAt j.systems (r + 1) = .ui false := by
            unfold cmdLogAt
            rw [List.getD_cons_succ, List.getD_append_right _ _ _ _ (by omega)]
            have ha : r - (knownLogs j.systems).length = 1 := by omega
            rw [ha]
            rfl
          have hcmd : (cmdList j.name j.gameType j.systems).getD (r + 1) sceneCmd =
              uiCmd j.systems := by
            unfold cmdList
            rw [List.getD_cons_succ, List.getD_append_right _ _ _ _ (by omega)]
            have ha : r - (importCmds j.name j.systems).length = 1 := by omega
            rw [ha]
            rfl
          rw [hlog, hcmd]
          simp
        · rw [hshape]
          simp only [progressVals_append, progressVals_cons_appendLog, progressVals_cons_cmd,
            progressVals_cons_setProgress, e4, e2]
          have hsb : stepsBeforeCmd j.systems (r + 1) = j.systems.length + 2 := by
            unfold stepsBeforeCmd
            rw [if_neg (by omega), if_neg (by omega)]
            omega
          rw [hsb]
          have hsplit : List.range' 1 (j.systems.length + 2) =
              (1 :: List.range' 2 j.systems.length) ++ [j.systems.length + 2] := by
            have hA : List.range' 1 (j.systems.length + 1 + 1) =
                List.range' 1 (j.systems.length + 1) ++ [1 + 1 * (j.systems.length + 1)] :=
              List.range'_concat 1 (j.systems.length + 1)
            have hC : List.range' 1 (j.systems.length + 1) = 1 :: List.range' 2 j.systems.length :=
              List.range'_succ ..
            have ea : j.systems.length + 2 = j.systems.length + 1 + 1 := by omega
            have eb : 1 + 1 * (j.systems.length + 1) = j.systems.length + 2 := by omega
            rw [ea, hA, hC, eb]
          rw [hsplit, List.map_append, List.map_cons]
          have harith : 1 + j.systems.length + 1 = j.systems.length + 2 := by omega
          rw [harith]
          simp
        · rw [hshape]
          simp only [cmdsOf_append, cmdsOf_cons_appendLog, cmdsOf_cons_cmd,
            cmdsOf_cons_setProgress, e5]
          unfold cmdList
          rw [List.take_succ_cons, List.take_of_length_le (by simp [hil]; omega)]
          simp
        · rw [hshape]
          simp only [logsOf_append, logsOf_cons_appendLog, logsOf_cons_cmd,
            logsOf_cons_setProgress, e6]
          rw [List.take_of_length_le (by simp [hkl]; omega)]
          simp
        · rw [hshape]
          simp only [statusVals_append, statusVals_cons_appendLog, statusVals_cons_cmd,
            statusVals_cons_setProgress, stepOnly_no_status e7]
          simp
        · rw [hshape]
          simp only [stepOnly_no_completedAt e7, List.any_append, List.any_cons]
          simp [isSetCompletedAt]

/-- Any run of the engine either sees every bridge command succeed, or there
is a first command that raises. -/
theorem oracle_cases (oracle : Nat → Option String) (n : Nat) :
    (∀ i, i < n → oracle i = none) ∨
    ∃ k msg, k < n ∧ (∀ i, i < k → oracle i = none) ∧ oracle k = some msg := by
  by_cases h : ∀ i, i < n → oracle i = none
  · exact Or.inl h
  · right
    push_neg at h
    obtain ⟨i, hi, hne⟩ := h
    have hP : ∃ m, oracle m ≠ none := ⟨i, hne⟩
    refine ⟨Nat.find hP, ?_⟩
    have hkn : Nat.find hP ≤ i := Nat.find_min' hP hne
    obtain ⟨msg, hmsg⟩ := Option.ne_none_iff_exists'.mp (Nat.find_spec hP)
    refine ⟨msg, by omega, ?_, hmsg⟩
    intro i2 hi2
    have := Nat.find_min hP hi2
    simpa using this

theorem mem_statusVals_of_mem {s : Status} {evs : List Ev}
    (h : Ev.setStatus s ∈ evs) : s ∈ statusVals evs :=
  List.mem_filterMap.mpr ⟨Ev.setStatus s, h, rfl⟩

/-! ### The WebSocket polling loop -/

theorem wsLoop_spec (states : Nat → Job) :
    ∀ (m fuel i : Nat), m < fuel →
      (∀ d, d < m → isTerminalStatus (states (i + d)).status = false) →
      isTerminalStatus (states (i + m)).status = true →
      wsLoop states fuel i =
        ((List.range (m + 1)).map (fun d => snapshotOf (states (i + d))), true) := by
  intro m
  induction m with
  | zero =>
    intro fuel i hf _ ht
    cases fuel with
    | zero => omega
    | succ f =>
      have ht' : isTerminalStatus (states i).status = true := by
        have ha : i + 0 = i := by omega
        rwa [ha] at ht
      unfold wsLoop
      rw [ht']
      have h1 : List.range 1 = [0] := rfl
      rw [h1]
      simp
  | succ m' ih =>
    intro fuel i hf hnt ht
    cases fuel with
    | zero => omega
    | succ f =>
      have h0 : isTerminalStatus (states i).status = false := by
        have := hnt 0 (by omega)
        have ha : i + 0 = i := by omega
        rwa [ha] at this
      have hrec := ih f (i + 1) (by omega)
        (fun d hd => by
          have := hnt (d + 1) (by omega)
          have ha : i + (d + 1) = i + 1 + d := by omega
          rwa [ha] at this)
        (by
          have ha : i + (m' + 1) = i + 1 + m' := by omega
          rwa [ha] at ht)
      unfold wsLoop
      simp only [h0, Bool.false_eq_true, if_false, hrec]
      rw [Prod.mk.injEq]
      refine ⟨?_, rfl⟩
      rw [List.range_succ_eq_map (m' + 1), List.map_cons, List.map_map]
      congr 1
      refine List.map_congr_left ?_
      intro d _
      simp only [Function.comp_apply]
      have ha : i + 1 + d = i + (d + 1) := by omega
      rw [ha]

/-! ### Unconditional corollaries about any engine run -/

/-- Every run's progress assignments are an initial segment of the canonical
floor-percentage sequence. -/
theorem gen_progressVals_shape (connectOk : Bool) (oracle : Nat → Option String) (j : Job) :
    ∃ q, progressVals (generate_prototype connectOk oracle j) =
      (List.range' 1 q).map (fun v => v * 100 / total_steps j.systems) := by
  cases connectOk with
  | false => exact ⟨total_steps j.systems, (gen_sim_spec oracle j).2.1⟩
  | true =>
    rcases oracle_cases oracle (countKnown j.systems + 3) with H | ⟨k, msg, hk, Hlt, Hk⟩
    · exact ⟨total_steps j.systems, (gen_ok_spec oracle j H).2.1⟩
    · exact ⟨stepsBeforeCmd j.systems k, (gen_fail_spec oracle j k msg hk Hlt Hk).2.1⟩

/-- Every run assigns exactly the statuses generating-then-terminal. -/
theorem gen_statusVals_cases (connectOk : Bool) (oracle : Nat → Option String) (j : Job) :
    statusVals (generate_prototype connectOk oracle j) = [Status.generating, Status.completed] ∨
    statusVals (generate_prototype connectOk oracle j) = [Status.generating, Status.failed] := by
  cases connectOk with
  | false => exact Or.inl (gen_sim_spec oracle j).2.2.2.2.1
  | true =>
    rcases oracle_cases oracle (countKnown j.systems + 3) with H | ⟨k, msg, hk, Hlt, Hk⟩
    · exact Or.inl (gen_ok_spec oracle j H).2.2.2.2.1
    · exact Or.inr (gen_fail_spec oracle j k msg hk Hlt Hk).2.2.2.2.1

/-- If a run ends with status completed, the stored progress is exactly 100. -/
theorem gen_completed_progress (connectOk : Bool) (oracle : Nat → Option String) (j : Job)
    (h : (runEvents j (generate_prototype connectOk oracle j)).status = Status.completed) :
    (runEvents j (generate_prototype connectOk oracle j)).progress = 100 := by
  have hprog : progressVals (generate_prototype connectOk oracle j) =
      (List.range' 1 (total_steps j.systems)).map
        (fun v => v * 100 / total_steps j.systems) := by
    cases connectOk with
    | false => exact (gen_sim_spec oracle j).2.1
    | true =>
      rcases oracle_cases oracle (countKnown j.systems + 3) with H | ⟨k, msg, hk, Hlt, Hk⟩
      · exact (gen_ok_spec oracle j H).2.1
      · exfalso
        have hst := (gen_fail_spec oracle j k msg hk Hlt Hk).2.2.2.2.1
        rw [runEvents_status, hst] at h
        simp [List.getLastD_cons] at h
  rw [runEvents_progress, hprog, getLastD_map_range']
  rw [if_neg (by simp [total_steps])]
  have ha : 1 + total_steps j.systems - 1 = total_steps j.systems := by omega
  rw [ha]
  exact Nat.mul_div_cancel_left 100 (by simp [total_steps])

/-- After the terminal `completed` status assignment, no further progress
assignment occurs in the trace. -/
theorem gen_no_progress_after_completed (connectOk : Bool) (oracle : Nat → Option String)
    (j : Job) :
    ∀ pre suf, generate_prototype connectOk oracle j =
      pre ++ Ev.setStatus Status.completed :: suf →
      ∀ p, Ev.setProgress p ∉ suf := by
  have main : ∀ mid l,
      generate_prototype connectOk oracle j =
        [Ev.setStatus .generating, Ev.appendLog .started] ++ mid ++
          [Ev.setStatus .completed, Ev.setCompletedAt, Ev.appendLog l] →
      stepOnly mid →
      ∀ pre suf, generate_prototype connectOk oracle j =
        pre ++ Ev.setStatus Status.completed :: suf →
        ∀ p, Ev.setProgress p ∉ suf := by
    intro mid l hsh hso pre suf heq p hp
    have hA : Ev.setStatus Status.completed ∉
        ([Ev.setStatus Status.generating, Ev.appendLog LogLine.started] ++ mid) := by
      intro hx
      rcases List.mem_append.mp hx with hx | hx
      · simp at hx
      · exact (hso _ hx).1 Status.completed rfl
    have hB : Ev.setStatus Status.completed ∉ [Ev.setCompletedAt, Ev.appendLog l] := by
      simp
    have hEq2 : ([Ev.setStatus Status.generating, Ev.appendLog LogLine.started] ++ mid) ++
        Ev.setStatus Status.completed :: [Ev.setCompletedAt, Ev.appendLog l] =
        pre ++ Ev.setStatus Status.completed :: suf := by
      rw [← heq, hsh]
    obtain ⟨_, hsuf⟩ := append_cons_eq_of_not_mem hA hB hEq2
    rw [← hsuf] at hp
    simp at hp
  cases connectOk with
  | false =>
    have hsh := (gen_sim_spec oracle j).1
    refine main _ (LogLine.done true) hsh ?_
    exact simFlat_stepOnly j.systems (total_steps j.systems)
  | true =>
    rcases oracle_cases oracle (countKnown j.systems + 3) with H | ⟨k, msg, hk, Hlt, Hk⟩
    · obtain ⟨⟨mid, hsh, hso⟩, _⟩ := gen_ok_spec oracle j H
      exact main mid (LogLine.done false) hsh hso
    · intro pre suf heq p hp
      have hst := (gen_fail_spec oracle j k msg hk Hlt Hk).2.2.2.2.1
      have hmem : Ev.setStatus Status.completed ∈ generate_prototype true oracle j := by
        rw [heq]
        simp
      have := mem_statusVals_of_mem hmem
      rw [hst] at this
      simp at this

/-! ### Claim theorems -/

/-- C1 counterexample: the claim says that once a job's status is completed no
operation changes its status, progress, logs, or completion timestamp again.
On the concrete simulated run of an empty-systems job, the replayed state after
9 events already has status completed, yet the next event sets the completion
timestamp and the one after appends the final log line — so the logs and the
completion timestamp do change after the status is terminal. -/
theorem C1_terminal_writes_counterexample :
    ((List.scanl applyEv (create_prototype "a" "Demo" "2D" [] none)
        (generate_prototype false (fun _ => none) (create_prototype "a" "Demo" "2D" [] none))).getD 9
        (create_prototype "a" "Demo" "2D" [] none)).status = Status.completed ∧
    ((List.scanl applyEv (create_prototype "a" "Demo" "2D" [] none)
        (generate_prototype false (fun _ => none) (create_prototype "a" "Demo" "2D" [] none))).getD 10
        (create_prototype "a" "Demo" "2D" [] none)).completedAt ≠
      ((List.scanl applyEv (create_prototype "a" "Demo" "2D" [] none)
        (generate_prototype false (fun _ => none) (create_prototype "a" "Demo" "2D" [] none))).getD 9
        (create_prototype "a" "Demo" "2D" [] none)).completedAt ∧
    ((List.scanl applyEv (create_prototype "a" "Demo" "2D" [] none)
        (generate_prototype false (fun _ => none) (create_prototype "a" "Demo" "2D" [] none))).getD 11
        (create_prototype "a" "Demo" "2D" [] none)).logs ≠
      ((List.scanl applyEv (create_prototype "a" "Demo" "2D" [] none)
        (generate_prototype false (fun _ => none) (create_prototype "a" "Demo" "2D" [] none))).getD 10
        (create_prototype "a" "Demo" "2D" [] none)).logs := by
  decide

/-- C1 (amended): every job is created with status queued; every engine run
first assigns status generating (with the started log line), then performs only
step work (progress updates, log appends, bridge commands — never a status or
completion-timestamp write), and finally either assigns status completed, sets
the completion timestamp and appends one final log line, or assigns status
failed and appends one error log line.  Hence the status only takes the four
listed values, the only transitions are queued→generating and
generating→{completed,failed}, status and progress never change after the
terminal assignment, and the only writes after the terminal status assignment
are the completion timestamp and the single final log line written by the same
terminating operation. -/
theorem C1_status_lifecycle (connectOk : Bool) (oracle : Nat → Option String)
    (id name gameType : String) (systems : List String) (reference : Option String) :
    (create_prototype id name gameType systems reference).status = Status.queued ∧
    ∃ mid term,
      generate_prototype connectOk oracle (create_prototype id name gameType systems reference) =
        [Ev.setStatus .generating, Ev.appendLog .started] ++ mid ++ term ∧
      stepOnly mid ∧
      ((∃ l, term = [Ev.setStatus .completed, Ev.setCompletedAt, Ev.appendLog l]) ∨
       (∃ msg, term = [Ev.setStatus .failed, Ev.appendLog (.error msg)])) := by
  refine ⟨rfl, ?_⟩
  cases connectOk with
  | false =>
    refine ⟨_, _, (gen_sim_spec oracle (create_prototype id name gameType systems reference)).1,
      simFlat_stepOnly _ _, Or.inl ⟨LogLine.done true, rfl⟩⟩
  | true =>
    rcases oracle_cases oracle
        (countKnown (create_prototype id name gameType systems reference).systems + 3) with
      H | ⟨k, msg, hk, Hlt, Hk⟩
    · obtain ⟨⟨mid, hsh, hso⟩, _⟩ :=
        gen_ok_spec oracle (create_prototype id name gameType systems reference) H
      exact ⟨mid, _, hsh, hso, Or.inl ⟨LogLine.done false, rfl⟩⟩
    · obtain ⟨⟨mid, hsh, hso, _⟩, _⟩ :=
        gen_fail_spec oracle (create_prototype id name gameType systems reference) k msg hk Hlt Hk
      exact ⟨mid, _, hsh, hso, Or.inr ⟨msg, rfl⟩⟩

/-- C3: if the initial bridge connect fails, the engine takes the simulated
path — it issues no bridge commands, always terminates with status completed
and progress 100, performs the same total step count and the same progress
arithmetic as the bridge path, and appends one "(simule)"-marked log line per
step whose content matches the step (scene, the requested key for each
per-system step — unknown keys included —, player, UI), plus the final done
line. -/
theorem C3_simulated_path (oracle : Nat → Option String) (id name gameType : String)
    (systems : List String) (reference : Option String) :
    cmdsOf (generate_prototype false oracle
      (create_prototype id name gameType systems reference)) = [] ∧
    (runEvents (create_prototype id name gameType systems reference)
      (generate_prototype false oracle
        (create_prototype id name gameType systems reference))).status = Status.completed ∧
    (runEvents (create_prototype id name gameType systems reference)
      (generate_prototype false oracle
        (create_prototype id name gameType systems reference))).progress = 100 ∧
    progressVals (generate_prototype false oracle
        (create_prototype id name gameType systems reference)) =
      (List.range' 1 (total_steps systems)).map (fun v => v * 100 / total_steps systems) ∧
    progressVals (generate_prototype false oracle
        (create_prototype id name gameType systems reference)) =
      progressVals (generate_prototype true (fun _ => none)
        (create_prototype id name gameType systems reference)) ∧
    logsOf (generate_prototype false oracle
        (create_prototype id name gameType systems reference)) =
      [LogLine.started, LogLine.scene true] ++
        systems.map (fun k => LogLine.system k true) ++
        [LogLine.player true, LogLine.ui true, LogLine.done true] := by
  obtain ⟨hsh, hprog, hcmds, hlogs, hstat, hca⟩ :=
    gen_sim_spec oracle (create_prototype id name gameType systems reference)
  have hstatus : (runEvents (create_prototype id name gameType systems reference)
      (generate_prototype false oracle
        (create_prototype id name gameType systems reference))).status = Status.completed := by
    rw [runEvents_status, hstat]
    rfl
  refine ⟨hcmds, hstatus, ?_, hprog, ?_, hlogs⟩
  · exact gen_completed_progress false oracle _ hstatus
  · rw [hprog,
      (gen_ok_spec (fun _ => none) (create_prototype id name gameType systems reference)
        (fun i _ => rfl)).2.1]

/-- C5: on both paths the total step count used for progress accounting is the
number of requested system keys plus 3: the simulated run performs exactly
`total_steps systems` progress updates, the successful bridge run performs the
same updates with the same floor-percentage values and divisor, and for an
empty request the total is exactly 3. -/
theorem C5_total_steps (oracle : Nat → Option String) (id name gameType : String)
    (systems : List String) (reference : Option String) :
    total_steps systems = systems.length + 3 ∧
    total_steps [] = 3 ∧
    (progressVals (generate_prototype false oracle
      (create_prototype id name gameType systems reference))).length = total_steps systems ∧
    progressVals (generate_prototype true (fun _ => none)
        (create_prototype id name gameType systems reference)) =
      (List.range' 1 (total_steps systems)).map (fun v => v * 100 / total_steps systems) ∧
    (progressVals (generate_prototype true (fun _ => none)
      (create_prototype id name gameType systems reference))).length = total_steps systems := by
  have hsim := (gen_sim_spec oracle (create_prototype id name gameType systems reference)).2.1
  have hok := (gen_ok_spec (fun _ => none) (create_prototype id name gameType systems reference)
    (fun i _ => rfl)).2.1
  refine ⟨rfl, rfl, ?_, hok, ?_⟩
  · rw [hsim]
    simp [create_prototype]
  · rw [hok]
    simp [create_prototype]

/-- C2: starting from the created job's progress 0, the sequence of progress
values assigned by any run — bridge-driven or simulated, with any pattern of
command outcomes — is monotonically non-decreasing; whenever the run ends with
status completed the stored progress is exactly 100; and no progress
assignment ever follows the terminal completed status assignment. -/
theorem C2_progress_monotone (connectOk : Bool) (oracle : Nat → Option String)
    (id name gameType : String) (systems : List String) (reference : Option String) :
    List.Chain' (· ≤ ·)
      ((create_prototype id name gameType systems reference).progress ::
        progressVals (generate_prototype connectOk oracle
          (create_prototype id name gameType systems reference))) ∧
    ((runEvents (create_prototype id name gameType systems reference)
        (generate_prototype connectOk oracle
          (create_prototype id name gameType systems reference))).status = Status.completed →
      (runEvents (create_prototype id name gameType systems reference)
        (generate_prototype connectOk oracle
          (create_prototype id name gameType systems reference))).progress = 100) ∧
    (∀ pre suf, generate_prototype connectOk oracle
        (create_prototype id name gameType systems reference) =
        pre ++ Ev.setStatus Status.completed :: suf →
      ∀ p, Ev.setProgress p ∉ suf) := by
  refine ⟨?_, gen_completed_progress connectOk oracle _,
    gen_no_progress_after_completed connectOk oracle _⟩
  obtain ⟨q, hq⟩ := gen_progressVals_shape connectOk oracle
    (create_prototype id name gameType systems reference)
  rw [hq]
  have hzero : (create_prototype id name gameType systems reference).progress = 0 := rfl
  rw [hzero]
  have hcons : (0 : Nat) :: (List.range' 1 q).map
      (fun v => v * 100 / total_steps (create_prototype id name gameType systems reference).systems) =
      (List.range' 0 (q + 1)).map
        (fun v => v * 100 / total_steps (create_prototype id name gameType systems reference).systems) := by
    rw [List.range'_succ, List.map_cons]
    simp
  rw [hcons]
  exact chain'_le_map_range' _ (fun a b h => Nat.div_le_div_right (Nat.mul_le_mul_right 100 h))
    (q + 1) 0

/-- C2 witness: the monotonicity chain applied to a concrete simulated run. -/
theorem C2_progress_monotone_witness :
    List.Chain' (· ≤ ·)
      ((create_prototype "a" "Demo" "2D" ["health"] none).progress ::
        progressVals (generate_prototype false (fun _ => none)
          (create_prototype "a" "Demo" "2D" ["health"] none))) :=
  (C2_progress_monotone false (fun _ => none) "a" "Demo" "2D" ["health"] none).1

/-- C4: if the bridge connects but the k-th command of the run raises (all
earlier ones having succeeded), the job ends failed with no completion
timestamp, exactly one error log line carrying the raised message is appended
(as the last log line, after all step logs recorded before the failure, which
are retained — the replayed state sequence only ever extends the log), and the
commands issued are exactly the first k+1 of the run's command list: nothing
is issued after the failing command. -/
theorem C4_bridge_failure (oracle : Nat → Option String) (k : Nat) (msg : String)
    (id name gameType : String) (systems : List String) (reference : Option String)
    (h1 : ∀ i, i < k → oracle i = none)
    (h2 : oracle k = some msg)
    (h3 : k < (cmdList name gameType systems).length) :
    (runEvents (create_prototype id name gameType systems reference)
      (generate_prototype true oracle
        (create_prototype id name gameType systems reference))).status = Status.failed ∧
    (runEvents (create_prototype id name gameType systems reference)
      (generate_prototype true oracle
        (create_prototype id name gameType systems reference))).completedAt = false ∧
    cmdsOf (generate_prototype true oracle
        (create_prototype id name gameType systems reference)) =
      (cmdList name gameType systems).take (k + 1) ∧
    (runEvents (create_prototype id name gameType systems reference)
      (generate_prototype true oracle
        (create_prototype id name gameType systems reference))).logs =
      (LogLine.started :: LogLine.scene false ::
        ((knownLogs systems ++ [LogLine.player false, LogLine.ui false]).take k)) ++
        [LogLine.error msg] ∧
    ((runEvents (create_prototype id name gameType systems reference)
      (generate_prototype true oracle
        (create_prototype id name gameType systems reference))).logs.countP isErrLine) = 1 ∧
    List.Chain' (fun a b => a.logs <+: b.logs)
      (List.scanl applyEv (create_prototype id name gameType systems reference)
        (generate_prototype true oracle
          (create_prototype id name gameType systems reference))) := by
  rw [cmdList_length] at h3
  obtain ⟨hstruct, hprog, hcmds, hlogs, hstat, hca⟩ :=
    gen_fail_spec oracle (create_prototype id name gameType systems reference) k msg h3 h1 h2
  have hlogs2 : (runEvents (create_prototype id name gameType systems reference)
      (generate_prototype true oracle
        (create_prototype id name gameType systems reference))).logs =
      (LogLine.started :: LogLine.scene false ::
        ((knownLogs systems ++ [LogLine.player false, LogLine.ui false]).take k)) ++
        [LogLine.error msg] := by
    rw [runEvents_logs, hlogs]
    rfl
  refine ⟨?_, ?_, hcmds, hlogs2, ?_, scanl_logs_monotone _ _⟩
  · rw [runEvents_status, hstat]
    rfl
  · rw [runEvents_completedAt, hca]
    rfl
  · rw [hlogs2]
    rw [List.countP_append]
    have hzero : (LogLine.started :: LogLine.scene false ::
        ((knownLogs systems ++ [LogLine.player false, LogLine.ui false]).take k)).countP
          isErrLine = 0 := by
      rw [List.countP_eq_zero]
      intro a ha
      rcases List.mem_cons.mp ha with rfl | ha
      · simp [isErrLine]
      rcases List.mem_cons.mp ha with rfl | ha
      · simp [isErrLine]
      have ha2 := List.mem_of_mem_take ha
      rcases List.mem_append.mp ha2 with ha3 | ha3
      · simp [knownLogs_no_error ha3]
      · rcases List.mem_cons.mp ha3 with rfl | ha4
        · simp [isErrLine]
        · rcases List.mem_cons.mp ha4 with rfl | ha5
          · simp [isErrLine]
          · simp at ha5
    rw [hzero]
    rfl

/-- C4 witness: a concrete run (empty request, every command raising) applied
to the theorem, with its hypotheses discharged at k = 0. -/
theorem C4_bridge_failure_witness :
    (runEvents (create_prototype "i" "Demo" "2D" [] none)
      (generate_prototype true (fun _ => some "boom")
        (create_prototype "i" "Demo" "2D" [] none))).status = Status.failed ∧
    (runEvents (create_prototype "i" "Demo" "2D" [] none)
      (generate_prototype true (fun _ => some "boom")
        (create_prototype "i" "Demo" "2D" [] none))).completedAt = false := by
  have h := C4_bridge_failure (fun _ => some "boom") 0 "boom" "i" "Demo" "2D" [] none
    (fun i hi => absurd hi (by omega)) rfl (by decide)
  exact ⟨h.1, h.2.1⟩

/-- C6: a request whose key list contains catalog-unknown keys is not rejected
at creation (the job is created queued with the list stored verbatim), no
`ImportVaultSystem` command is ever issued for an unknown key on any bridge
run, and the progress accounting of a run depends only on the number of
requested keys: a list with unknown keys yields exactly the same progress
sequence as any equally long list of known keys. -/
theorem C6_unknown_keys (u : String) (oracle : Nat → Option String)
    (id name gameType : String) (systems : List String) (reference : Option String)
    (hu : List.lookup u SYSTEM_TEMPLATES = none) :
    (create_prototype id name gameType systems reference).status = Status.queued ∧
    (create_prototype id name gameType systems reference).systems = systems ∧
    (∀ p t, BridgeCmd.importVaultSystem u p t ∉
      cmdsOf (generate_prototype true oracle
        (create_prototype id name gameType systems reference))) ∧
    (∀ systems2 : List String, systems2.length = systems.length →
      progressVals (generate_prototype true (fun _ => none)
        (create_prototype id name gameType systems reference)) =
      progressVals (generate_prototype true (fun _ => none)
        (create_prototype id name gameType systems2 reference))) := by
  refine ⟨rfl, rfl, ?_, ?_⟩
  · intro p t hmem
    have hsub : BridgeCmd.importVaultSystem u p t ∈ cmdList name gameType systems := by
      rcases oracle_cases oracle
          (countKnown (create_prototype id name gameType systems reference).systems + 3) with
        H | ⟨k, msg, hk, Hlt, Hk⟩
      · have := (gen_ok_spec oracle (create_prototype id name gameType systems reference) H).2.2.1
        rw [this] at hmem
        exact hmem
      · have := (gen_fail_spec oracle (create_prototype id name gameType systems reference)
          k msg hk Hlt Hk).2.2.1
        rw [this] at hmem
        exact List.mem_of_mem_take hmem
    rcases List.mem_cons.mp hsub with hc | hsub
    · exact absurd hc (by simp [sceneCmd])
    rcases List.mem_append.mp hsub with hc | hc
    · obtain ⟨k2, _, hk2⟩ := List.mem_filterMap.mp hc
      cases hq : List.lookup k2 SYSTEM_TEMPLATES with
      | none => rw [hq] at hk2; simp at hk2
      | some t2 =>
        rw [hq] at hk2
        simp [importCmd] at hk2
        obtain ⟨hk3, _⟩ := hk2
        rw [hk3] at hq
        rw [hq] at hu
        exact Option.noConfusion hu
    · rcases List.mem_cons.mp hc with hc2 | hc2
      · exact absurd hc2 (by simp [playerCmd])
      · rcases List.mem_cons.mp hc2 with hc3 | hc3
        · exact absurd hc3 (by simp [uiCmd])
        · simp at hc3
  · intro systems2 hlen
    have h1 := (gen_ok_spec (fun _ => none)
      (create_prototype id name gameType systems reference) (fun i _ => rfl)).2.1
    have h2 := (gen_ok_spec (fun _ => none)
      (create_prototype id name gameType systems2 reference) (fun i _ => rfl)).2.1
    rw [h1, h2]
    have hts : total_steps (create_prototype id name gameType systems reference).systems =
        total_steps (create_prototype id name gameType systems2 reference).systems := by
      simp [create_prototype, total_steps, hlen]
    rw [hts]

/-- C6 witness: the theorem applied to the concrete unknown key "nope". -/
theorem C6_unknown_keys_witness :
    (create_prototype "i" "Demo" "2D" ["nope"] none).status = Status.queued ∧
    BridgeCmd.importVaultSystem "nope" "Core/X" "Assets/X" ∉
      cmdsOf (generate_prototype true (fun _ => none)
        (create_prototype "i" "Demo" "2D" ["nope"] none)) := by
  have h := C6_unknown_keys "nope" (fun _ => none) "i" "Demo" "2D" ["nope"] none (by decide)
  exact ⟨h.1, h.2.2.1 "Core/X" "Assets/X"⟩

/-- C7 counterexample: the claim says a descriptive log line is appended for
every step, including per-system steps whose key is unknown.  On the concrete
bridge-path run of a job requesting only the unknown key "nope", the run
performs 4 steps (4 progress updates) but appends only the scene, player, UI
and done lines: no log line at all — in particular no per-system line — is
appended for the unknown key's step. -/
theorem C7_step_logging_counterexample :
    logsOf (generate_prototype true (fun _ => none)
        (create_prototype "a" "Demo" "2D" ["nope"] none)) =
      [LogLine.started, LogLine.scene false, LogLine.player false, LogLine.ui false,
       LogLine.done false] ∧
    (progressVals (generate_prototype true (fun _ => none)
        (create_prototype "a" "Demo" "2D" ["nope"] none))).length = 4 ∧
    (logsOf (generate_prototype true (fun _ => none)
        (create_prototype "a" "Demo" "2D" ["nope"] none))).countP
      (fun l => match l with | LogLine.system _ _ => true | _ => false) = 0 := by
  decide

/-- C7 (amended): after every step of either path the stored progress equals
floor(completed_steps / total_steps * 100) — every run's progress assignments
are a prefix of the sequence k*100/total for k = 1, 2, ..., and both complete
runs realize the full sequence — and a timestamped log line describing the
step is appended for every step, except that on the bridge path a per-system
step whose key is absent from the catalog appends no log line (its step still
counts); on the simulated path every step, unknown keys included, appends its
line. -/
theorem C7_step_logging (oracle : Nat → Option String) (connectOk : Bool)
    (id name gameType : String) (systems : List String) (reference : Option String) :
    progressVals (generate_prototype true (fun _ => none)
        (create_prototype id name gameType systems reference)) =
      (List.range' 1 (total_steps systems)).map (fun v => v * 100 / total_steps systems) ∧
    logsOf (generate_prototype true (fun _ => none)
        (create_prototype id name gameType systems reference)) =
      [LogLine.started, LogLine.scene false] ++ knownLogs systems ++
        [LogLine.player false, LogLine.ui false, LogLine.done false] ∧
    progressVals (generate_prototype false oracle
        (create_prototype id name gameType systems reference)) =
      (List.range' 1 (total_steps systems)).map (fun v => v * 100 / total_steps systems) ∧
    logsOf (generate_prototype false oracle
        (create_prototype id name gameType systems reference)) =
      [LogLine.started, LogLine.scene true] ++
        systems.map (fun k => LogLine.system k true) ++
        [LogLine.player true, LogLine.ui true, LogLine.done true] ∧
    (∃ q, progressVals (generate_prototype connectOk oracle
        (create_prototype id name gameType systems reference)) =
      (List.range' 1 q).map (fun v => v * 100 / total_steps systems)) := by
  obtain ⟨_, hprogS, _, hlogsS, _, _⟩ :=
    gen_sim_spec oracle (create_prototype id name gameType systems reference)
  obtain ⟨_, hprogB, _, hlogsB, _, _⟩ :=
    gen_ok_spec (fun _ => none) (create_prototype id name gameType systems reference)
      (fun i _ => rfl)
  exact ⟨hprogB, hlogsB, hprogS, hlogsS,
    gen_progressVals_shape connectOk oracle (create_prototype id name gameType systems reference)⟩

/-- C8: `send_command` on a non-live connection makes exactly one connect
attempt; if the connection is still not live it fails with the recoverable
`BridgeUnavailable` (HTTP 503) condition without writing to the transport; on
a live connection no connect attempt is made; and any transport or parse error
after the connection was live downgrades the connection to not-live and fails
with `BridgeCommandError` carrying the underlying cause. -/
theorem C8_send_command (b : UnityBridge) (connectOk : Bool) (io : Except String String) :
    (b.connected = false →
      (send_command b connectOk io).connectAttempts = 1 ∧
      (connectOk = false →
        (send_command b connectOk io).result = Except.error BridgeError.unavailable ∧
        (send_command b connectOk io).wrote = false ∧
        (send_command b connectOk io).bridge.connected = false)) ∧
    (b.connected = true → (send_command b connectOk io).connectAttempts = 0) ∧
    (∀ e, io = Except.error e → (b.connected = true ∨ connectOk = true) →
      (send_command b connectOk io).result = Except.error (BridgeError.commandError e) ∧
      (send_command b connectOk io).bridge.connected = false ∧
      (send_command b connectOk io).wrote = true) := by
  rcases b with ⟨bc⟩
  cases bc <;> cases connectOk <;> cases io <;>
    simp [send_command, connect]

/-- C8 witness: the theorem applied at concrete bridge states — a doubly dead
connection yields `BridgeUnavailable` with no write, and a transport error on
a live connection yields `BridgeCommandError` and a dead connection. -/
theorem C8_send_command_witness :
    (send_command ⟨false⟩ false (Except.ok "resp")).result =
      Except.error BridgeError.unavailable ∧
    (send_command ⟨false⟩ false (Except.ok "resp")).wrote = false ∧
    (send_command ⟨true⟩ true (Except.error "io down")).result =
      Except.error (BridgeError.commandError "io down") ∧
    (send_command ⟨true⟩ true (Except.error "io down")).bridge.connected = false := by
  have h1 := (C8_send_command ⟨false⟩ false (Except.ok "resp")).1 rfl
  have h2 := ((C8_send_command ⟨true⟩ true (Except.error "io down")).2.2
    "io down" rfl (Or.inl rfl))
  exact ⟨(h1.2 rfl).1, (h1.2 rfl).2.1, h2.1, h2.2.1⟩

/-- C9: a progress subscription for an identifier with no stored job is
refused immediately with the distinct close code 4004 and no snapshot is
emitted; for a stored identifier, one snapshot of {progress, status, last 5
log lines} is emitted per poll of the job's state, and when the m-th polled
state is the first with terminal status the emitted sequence is exactly the
snapshots of polls 0..m — ending with the terminal snapshot via the loop's
break. -/
theorem C9_ws_subscription (db : List (String × Job)) (id : String) (states : Nat → Job)
    (fuel : Nat) :
    (List.lookup id db = none → websocket_progress db id states fuel = WsResult.refused 4004) ∧
    (∀ j0, List.lookup id db = some j0 →
      ∀ m, m < fuel →
        (∀ i, i < m → isTerminalStatus (states i).status = false) →
        isTerminalStatus (states m).status = true →
        websocket_progress db id states fuel =
          WsResult.stream ((List.range (m + 1)).map (fun i => snapshotOf (states i))) true ∧
        ((List.range (m + 1)).map (fun i => snapshotOf (states i))).getLastD
            (snapshotOf (states m)) = snapshotOf (states m)) := by
  constructor
  · intro hnone
    unfold websocket_progress
    rw [hnone]
  · intro j0 hsome m hm hnt ht
    have hws := wsLoop_spec states m fuel 0 hm
      (fun d hd => by
        have := hnt d hd
        have ha : (0 : Nat) + d = d := by omega
        rwa [ha])
      (by
        have ha : (0 : Nat) + m = m := by omega
        rwa [ha])
    have hmap : (List.range (m + 1)).map (fun d => snapshotOf (states (0 + d))) =
        (List.range (m + 1)).map (fun i => snapshotOf (states i)) := by
      refine List.map_congr_left ?_
      intro d _
      have ha : (0 : Nat) + d = d := by omega
      rw [ha]
    constructor
    · unfold websocket_progress
      rw [hsome]
      rw [hws, hmap]
    · rw [List.range_eq_range', getLastD_map_range']
      rw [if_neg (by omega)]
      have ha : (0 : Nat) + (m + 1) - 1 = m := by omega
      rw [ha]

/-- C9 witness: the theorem applied to a concrete store — an unknown
identifier is refused with code 4004, and a job already terminal at
subscription time yields exactly one snapshot. -/
theorem C9_ws_subscription_witness :
    websocket_progress [] "missing"
      (fun _ => create_prototype "a" "n" "2D" [] none) 3 = WsResult.refused 4004 ∧
    websocket_progress
        [("a", runEvents (create_prototype "a" "n" "2D" [] none) [Ev.setStatus Status.completed])]
        "a"
        (fun _ => runEvents (create_prototype "a" "n" "2D" [] none) [Ev.setStatus Status.completed])
        1 =
      WsResult.stream ((List.range 1).map (fun _ => snapshotOf
        (runEvents (create_prototype "a" "n" "2D" [] none) [Ev.setStatus Status.completed]))) true := by
  constructor
  · exact (C9_ws_subscription [] "missing" (fun _ => create_prototype "a" "n" "2D" [] none) 3).1 rfl
  · exact ((C9_ws_subscription
      [("a", runEvents (create_prototype "a" "n" "2D" [] none) [Ev.setStatus Status.completed])]
      "a"
      (fun _ => runEvents (create_prototype "a" "n" "2D" [] none) [Ev.setStatus Status.completed])
      1).2
      (runEvents (create_prototype "a" "n" "2D" [] none) [Ev.setStatus Status.completed])
      (by rfl) 0 (by omega) (fun i hi => absurd hi (by omega)) (by rfl)).1

/-- C10: on the bridge path, when the k-th issued command raises (all earlier
ones having succeeded) the stored progress is exactly
floor(completed_steps * 100 / total_steps), where completed_steps
(`stepsBeforeCmd`) counts only the steps fully completed before the failing
command — the scene step and every requested key, known or unknown, processed
before it; a failure on the very first (scene) command leaves progress at 0;
the trace ends with the failing step's descriptive log line (appended before
the command was sent) immediately followed by the failing command, the failed
status and the error line, so no progress update for the failing step occurs
and its log line is already present in the final log. -/
theorem C10_failure_progress (oracle : Nat → Option String) (k : Nat) (msg : String)
    (id name gameType : String) (systems : List String) (reference : Option String)
    (h1 : ∀ i, i < k → oracle i = none)
    (h2 : oracle k = some msg)
    (h3 : k < (cmdList name gameType systems).length) :
    (runEvents (create_prototype id name gameType systems reference)
      (generate_prototype true oracle
        (create_prototype id name gameType systems reference))).progress =
      stepsBeforeCmd systems k * 100 / total_steps systems ∧
    (k = 0 → (runEvents (create_prototype id name gameType systems reference)
      (generate_prototype true oracle
        (create_prototype id name gameType systems reference))).progress = 0) ∧
    (∃ pre, generate_prototype true oracle
        (create_prototype id name gameType systems reference) =
      pre ++ [Ev.appendLog (cmdLogAt systems k),
              Ev.cmd ((cmdList name gameType systems).getD k sceneCmd),
              Ev.setStatus Status.failed, Ev.appendLog (LogLine.error msg)]) ∧
    cmdLogAt systems k ∈ (runEvents (create_prototype id name gameType systems reference)
      (generate_prototype true oracle
        (create_prototype id name gameType systems reference))).logs := by
  rw [cmdList_length] at h3
  obtain ⟨⟨mid, hsh, hso, mid2, hmid⟩, hprog, hcmds, hlogs, hstat, hca⟩ :=
    gen_fail_spec oracle (create_prototype id name gameType systems reference) k msg h3 h1 h2
  have hsys : (create_prototype id name gameType systems reference).systems = systems := rfl
  have hnm : (create_prototype id name gameType systems reference).name = name := rfl
  have hgt : (create_prototype id name gameType systems reference).gameType = gameType := rfl
  rw [hsys, hnm, hgt] at hmid
  rw [hsys] at hprog
  have hpr : (runEvents (create_prototype id name gameType systems reference)
      (generate_prototype true oracle
        (create_prototype id name gameType systems reference))).progress =
      stepsBeforeCmd systems k * 100 / total_steps systems := by
    rw [runEvents_progress, hprog, getLastD_map_range']
    rcases Nat.eq_zero_or_pos (stepsBeforeCmd systems k) with hz | hz
    · rw [if_pos (by rw [hz]), hz]
      simp [create_prototype]
    · rw [if_neg (by omega)]
      have ha : 1 + stepsBeforeCmd systems k - 1 = stepsBeforeCmd systems k := by omega
      rw [ha]
  have hsuffix : ∃ pre, generate_prototype true oracle
      (create_prototype id name gameType systems reference) =
      pre ++ [Ev.appendLog (cmdLogAt systems k),
              Ev.cmd ((cmdList name gameType systems).getD k sceneCmd),
              Ev.setStatus Status.failed, Ev.appendLog (LogLine.error msg)] := by
    refine ⟨[Ev.setStatus .generating, Ev.appendLog .started] ++ mid2, ?_⟩
    rw [hsh, hmid]
    simp
  refine ⟨hpr, ?_, hsuffix, ?_⟩
  · intro hk0
    rw [hpr, hk0]
    have hz : stepsBeforeCmd systems 0 = 0 := by
      unfold stepsBeforeCmd
      rw [if_pos rfl]
    rw [hz]
    simp
  · obtain ⟨pre, hpre⟩ := hsuffix
    rw [runEvents_logs, hpre]
    simp

/-- C10 witness: the theorem applied to a concrete run requesting
health, an unknown key, and mana, with the third command (the mana import)
raising: two of five commands succeeded, three of six steps completed
(scene, health, the unknown key), so progress is floor(3/6*100) = 50. -/
theorem C10_failure_progress_witness :
    (runEvents (create_prototype "i" "Demo" "2D" ["health", "nope", "mana"] none)
      (generate_prototype true (fun i => if i < 2 then none else some "boom")
        (create_prototype "i" "Demo" "2D" ["health", "nope", "mana"] none))).progress = 50 := by
  have h := C10_failure_progress (fun i => if i < 2 then none else some "boom") 2 "boom"
    "i" "Demo" "2D" ["health", "nope", "mana"] none
    (fun i hi => by simp [hi]) (by decide) (by decide)
  exact h.1.trans (by decide)
